import Mathlib

/-!
Verification development for the Invoice Memory System (TypeScript).

This file gives a shallow embedding of the memory-driven invoice pipeline:
the confidence engine (src/memory/confidence.ts), the memory store
(src/memory/MemoryStore.ts), the duplicate detector (src/core/duplicates.ts),
the rule modules (src/core/rules/vendorRules.ts, correctionRules.ts), the
audit helpers (src/core/audit.ts) and the pipeline orchestrator
(src/core/pipeline.ts), together with theorems about them.

Modelling conventions:
- JavaScript numbers are modelled as exact rationals (ℚ).  All constants in
  the source are decimal literals, so the arithmetic structure is preserved.
- ISO-8601 timestamp strings are modelled as integers at day granularity
  (`ℤ`), which is the granularity the decay logic of confidence.ts uses.
- `generateHash` (src/utils/helpers.ts) serializes its input with
  JSON.stringify under a sorted key list and takes a truncated SHA-256.  The
  hash is modelled as the canonical serialized string itself: SHA-256 is a
  fixed injection for the purposes of this development (collisions of the
  64-bit truncation are outside the model).  Equal inputs give equal hashes
  exactly as in the source; distinct canonical strings give distinct hashes.
- `generateId` calls (crypto randomness) are modelled by explicit fresh-id
  arguments threaded by the caller.
- Persistence (loadFromDisk/saveToDisk, appendToAuditLog file writes) and
  logging are out of scope per the spec and are not modelled; `isDirty`,
  `schemaVersion` and `lastUpdated` exist only for persistence and are
  omitted from the store state.
-/

/- Core marks the rational-number operations irreducible, which blocks the
`decide`-based evaluation of the embedding at concrete inputs; restore
definitional transparency for them (the kernel checks such proofs by plain
reduction either way). -/
set_option allowUnsafeReducibility true in
attribute [semireducible] Rat.mul Rat.inv Rat.add Rat.sub Rat.div Rat.blt
  Rat.neg Rat.ofScientific

namespace InvoiceMemory

/-! ## String helpers (JS string operations used by the source) -/

/-- Whitespace class of JavaScript (`\s`, ASCII approximation). -/
def isJsWs (c : Char) : Bool :=
  c == ' ' || c == '\t' || c == '\n' || c == '\r' || c == '\x0b' || c == '\x0c'

/-- Lower-case one ASCII character. -/
def charLower (c : Char) : Char :=
  if 'A' ≤ c && c ≤ 'Z' then Char.ofNat (c.toNat + 32) else c

/-- Model of JavaScript `String.prototype.toLowerCase` (ASCII-accurate). -/
def strLower (s : String) : String := String.mk (s.toList.map charLower)

/-- Model of JavaScript `String.prototype.trim`. -/
def strTrim (s : String) : String :=
  String.mk (((s.toList.dropWhile isJsWs).reverse.dropWhile isJsWs).reverse)

/-- Split a character list on a separator character (JS `split` with a
one-character separator). -/
def splitOnChar (sep : Char) : List Char → List (List Char)
  | [] => [[]]
  | c :: cs =>
      if c == sep then [] :: splitOnChar sep cs
      else
        match splitOnChar sep cs with
        | h :: t => (c :: h) :: t
        | [] => [[c]]

/-- Keep only the characters matched by the regex class `[a-z0-9]`. -/
def keepAlnum (s : String) : String :=
  String.mk (s.toList.filter fun c =>
    (('a' ≤ c && c ≤ 'z') || ('0' ≤ c && c ≤ '9')))

/-- Model of JavaScript `String.prototype.substring(0, n)`. -/
def strTakeN (n : Nat) (s : String) : String := String.mk (s.toList.take n)

/-- Does the character list start with the given character list? -/
def listStartsWith : List Char → List Char → Bool
  | [], _ => true
  | _ :: _, [] => false
  | c :: cs, d :: ds => c == d && listStartsWith cs ds

/-- Does the character list contain the first list as a contiguous run? -/
def listHasRun (needle : List Char) : List Char → Bool
  | [] => needle.isEmpty
  | d :: ds => listStartsWith needle (d :: ds) || listHasRun needle ds

/-- Model of JavaScript `String.prototype.includes`. -/
def strIncludes (hay needle : String) : Bool :=
  listHasRun needle.toList hay.toList

/-- Model of JavaScript `String.prototype.endsWith`. -/
def strEndsWithStr (s suf : String) : Bool :=
  listStartsWith suf.toList.reverse s.toList.reverse

/-- Model of JavaScript `String.prototype.padStart(2, '0')`. -/
def padStart2 (s : String) : String :=
  if s.length < 2 then "0" ++ s else s

/-! ## Number formatting (JS `toFixed`, `Math.round`, `toString`) -/

/-- JavaScript `Math.round`: nearest integer, ties toward plus infinity. -/
def jsRound (q : ℚ) : ℤ := ⌊q + 1/2⌋

/-- Decimal digits of a natural number. -/
def natDigits (n : Nat) : String := toString n

/-- Render an integer as JS would. -/
def intStr (n : ℤ) : String := if n < 0 then "-" ++ natDigits (-n).toNat else natDigits n.toNat

/-- Model of JavaScript `Number.prototype.toFixed(0)`. -/
def fmtFixed0 (q : ℚ) : String := intStr ⌊q + 1/2⌋

/-- Model of JavaScript `Number.prototype.toFixed(2)`. -/
def fmtFixed2 (q : ℚ) : String :=
  let n : ℤ := ⌊q * 100 + 1/2⌋
  let sign := if n < 0 then "-" else ""
  let m := n.natAbs
  sign ++ natDigits (m / 100) ++ "." ++ padStart2 (natDigits (m % 100))

/-- Render a JS number: integers without decimals, otherwise two decimals
(an abstraction of JS float printing, adequate for the audit strings). -/
def fmtNum (q : ℚ) : String := if q.den = 1 then intStr q.num else fmtFixed2 q

/-! ## generateHash (src/utils/helpers.ts)

`JSON.stringify(data, Object.keys(data).sort())` renders the object with its
keys in sorted order; the SHA-256 truncation is modelled as the identity on
that canonical string (see the header comment). -/

/-- Lexicographic comparison of character lists (JS string `sort` order on
ASCII keys). -/
def charListLE : List Char → List Char → Bool
  | [], _ => true
  | _ :: _, [] => false
  | c :: cs, d :: ds => if c == d then charListLE cs ds else decide (c < d)

/-- Lexicographic string order. -/
def strLE (a b : String) : Bool := charListLE a.toList b.toList

/-- Join strings with a separator (JS `Array.prototype.join`). -/
def joinWith (sep : String) : List String → String
  | [] => ""
  | [a] => a
  | a :: b :: rest => a ++ sep ++ joinWith sep (b :: rest)

/-- Insertion of a key/value pair into a key-sorted association list. -/
def insertSorted (p : String × String) : List (String × String) → List (String × String)
  | [] => [p]
  | q :: qs => if strLE p.1 q.1 then p :: q :: qs else q :: insertSorted p qs

/-- Sort an association list by key (JS `Object.keys(data).sort()`). -/
def sortByKey : List (String × String) → List (String × String)
  | [] => []
  | p :: ps => insertSorted p (sortByKey ps)

/-- One `"key":"value"` JSON member. -/
def renderMember (p : String × String) : String :=
  "\"" ++ p.1 ++ "\":\"" ++ p.2 ++ "\""

/-- Model of `generateHash` from src/utils/helpers.ts: the canonical sorted
JSON serialization, standing in for its truncated SHA-256. -/
def generateHash (data : List (String × String)) : String :=
  "\x7b" ++ joinWith "," ((sortByKey data).map renderMember) ++ "\x7d"

/-! ## Confidence engine (src/memory/confidence.ts) -/

/-- CONFIDENCE_CONFIG.INITIAL. -/
def INITIAL : ℚ := 0.3
/-- CONFIDENCE_CONFIG.MAX. -/
def MAXC : ℚ := 0.95
/-- CONFIDENCE_CONFIG.MIN. -/
def MINC : ℚ := 0.0
/-- CONFIDENCE_CONFIG.REINFORCE_DELTA. -/
def REINFORCE_DELTA : ℚ := 0.15
/-- CONFIDENCE_CONFIG.PENALIZE_DELTA. -/
def PENALIZE_DELTA : ℚ := 0.2
/-- CONFIDENCE_CONFIG.DEACTIVATION_THRESHOLD. -/
def DEACTIVATION_THRESHOLD : ℚ := 0.1
/-- CONFIDENCE_CONFIG.DECAY_GRACE_PERIOD_DAYS. -/
def DECAY_GRACE_PERIOD_DAYS : ℤ := 7
/-- CONFIDENCE_CONFIG.DECAY_RATE_PER_DAY. -/
def DECAY_RATE_PER_DAY : ℚ := 0.02

/-- `initialConfidence` from confidence.ts. -/
def initialConfidence : ℚ := INITIAL

/-- `reinforce` from confidence.ts: diminishing-returns increase, capped at MAX. -/
def reinforce (confidence : ℚ) : ℚ :=
  let headroom := MAXC - confidence
  let effectiveDelta := REINFORCE_DELTA * (headroom / MAXC)
  let newConfidence := confidence + max effectiveDelta 0.01
  min newConfidence MAXC

/-- `penalize` from confidence.ts: fixed delta decrease, floored at MIN. -/
def penalize (confidence : ℚ) : ℚ :=
  max (confidence - PENALIZE_DELTA) MINC

/-- `shouldDeactivate` from confidence.ts. -/
def shouldDeactivate (confidence : ℚ) : Bool :=
  confidence < DEACTIVATION_THRESHOLD

/-- `applyDecay` from confidence.ts.  Timestamps are whole days (see header):
no decay inside the grace window, then exponential decay per elapsed day. -/
def applyDecay (confidence : ℚ) (lastUpdated now : ℤ) : ℚ :=
  let daysSinceUpdate := now - lastUpdated
  if daysSinceUpdate ≤ DECAY_GRACE_PERIOD_DAYS then confidence
  else
    let effectiveDecayDays := (daysSinceUpdate - DECAY_GRACE_PERIOD_DAYS).toNat
    let decayFactor := (1 - DECAY_RATE_PER_DAY) ^ effectiveDecayDays
    max (confidence * decayFactor) MINC

/-! ## Data model (src/types/index.ts) -/

/-- Line item of an invoice (interface LineItem). -/
structure LineItem where
  description : String
  quantity : Option ℚ
  unitPrice : Option ℚ
  amount : ℚ
  category : Option String
  productCode : Option String
  deriving DecidableEq, Repr

/-- Vendor block of an invoice input. -/
structure VendorInfo where
  name : String
  id : Option String
  taxId : Option String
  address : Option String
  deriving DecidableEq, Repr

/-- Structured payment terms (Skonto detection output / input pass-through). -/
structure PaymentTerms where
  discountPercent : Option ℚ
  discountDays : Option ℤ
  netDays : Option ℤ
  deriving DecidableEq, Repr

/-- Invoice input (interface InvoiceInput).  `metadata` is the extensible
string-keyed map; `rawText`, `serviceDate` and `paymentTerms` are the extra
fields the rule modules read off the input object at runtime. -/
structure InvoiceInput where
  invoiceId : String
  vendor : VendorInfo
  invoiceDate : String
  dueDate : Option String
  invoiceNumber : String
  totalAmount : ℚ
  currency : String
  lineItems : List LineItem
  poNumber : Option String
  metadata : List (String × String)
  rawText : Option String
  serviceDate : Option String
  paymentTerms : Option PaymentTerms
  extractionConfidence : Option ℚ
  deriving DecidableEq, Repr

/-- First value bound to a key in a string map (JS object property access). -/
def metaGet (m : List (String × String)) (k : String) : Option String :=
  (m.find? fun p => p.1 == k).map Prod.snd

/-- Shared fields of every memory record (interface BaseMemoryRecord). -/
structure MemBase where
  id : String
  createdAt : ℤ
  updatedAt : ℤ
  confidence : ℚ
  reinforcementCount : ℕ
  contradictionCount : ℕ
  isActive : Bool
  deriving DecidableEq, Repr

/-- Vendor field mapping (interface FieldMapping). -/
structure FieldMapping where
  sourceField : String
  targetField : String
  confidence : ℚ
  occurrenceCount : ℕ
  exampleValues : List String
  deriving DecidableEq, Repr

/-- Vendor behaviours (interface VendorBehavior; the fields the engine reads). -/
structure VendorBehavior where
  vatIncluded : Option Bool
  defaultVatRate : Option ℚ
  defaultCurrency : Option String
  paymentTermsDays : Option ℚ
  deriving DecidableEq, Repr

/-- An all-absent behaviour record (JS `{}`). -/
def VendorBehavior.empty : VendorBehavior := ⟨none, none, none, none⟩

/-- Merge a partial behaviour update over an existing one (JS object spread
`{ ...existing, ...update }`; a present field of the update wins). -/
def VendorBehavior.merge (e u : VendorBehavior) : VendorBehavior :=
  ⟨u.vatIncluded <|> e.vatIncluded, u.defaultVatRate <|> e.defaultVatRate,
   u.defaultCurrency <|> e.defaultCurrency, u.paymentTermsDays <|> e.paymentTermsDays⟩

/-- Vendor memory record (interface VendorMemory). -/
structure VendorMemory where
  base : MemBase
  canonicalName : String
  canonicalId : String
  nameVariations : List String
  fieldMappings : List (String × FieldMapping)
  behaviors : VendorBehavior
  taxId : Option String
  deriving DecidableEq, Repr

/-- Correction pattern type discriminator. -/
inductive PatternType where
  | quantityMismatch | taxRecomputation | fieldCorrection | amountAdjustment | other
  deriving DecidableEq, Repr

/-- Correction pattern (interface CorrectionPattern). -/
structure CorrectionPattern where
  type : PatternType
  signature : String
  condition : String
  deriving DecidableEq, Repr

/-- Correction memory record (interface CorrectionMemory). -/
structure CorrectionMemory where
  base : MemBase
  pattern : CorrectionPattern
  suggestedAction : String
  vendorId : Option String
  humanApproved : Bool
  deriving DecidableEq, Repr

/-- Human decision (interface HumanDecision; the string unions stay strings). -/
structure HumanDecision where
  decisionType : String
  action : String
  timestamp : ℤ
  reason : Option String
  userId : Option String
  deriving DecidableEq, Repr

/-- Resolution memory record (interface ResolutionMemory). -/
structure ResolutionMemory where
  base : MemBase
  decisions : List HumanDecision
  relatedMemoryId : Option String
  contextHash : String
  deriving DecidableEq, Repr

/-- Duplicate record (interface DuplicateRecord). -/
structure DuplicateRecord where
  base : MemBase
  duplicateHash : String
  originalInvoiceId : String
  duplicateInvoiceIds : List String
  vendorId : String
  invoiceNumber : String
  amount : ℚ
  confirmedDuplicate : Bool
  resolution : String
  deriving DecidableEq, Repr

/-- Store statistics. -/
structure Stats where
  totalInvoicesProcessed : ℕ
  totalCorrectionsApplied : ℕ
  totalHumanReviewsRequested : ℕ
  averageConfidence : ℚ
  deriving DecidableEq, Repr

/-- In-memory store state (interface MemoryStoreData).  `vendorMemories` is a
string-keyed object whose value iteration order is insertion order, so it is
modelled as an association list. -/
structure Store where
  vendorMemories : List (String × VendorMemory)
  correctionMemories : List CorrectionMemory
  resolutionMemories : List ResolutionMemory
  duplicates : List DuplicateRecord
  stats : Stats
  deriving DecidableEq, Repr

/-- `createEmptyStore` from MemoryStore.ts (persistence fields omitted). -/
def createEmptyStore : Store := ⟨[], [], [], [], ⟨0, 0, 0, 0⟩⟩

/-! ## Generic list update helper

TypeScript mutates the object returned by `Array.prototype.find` in place;
functionally that is: replace the first element satisfying the predicate. -/

/-- Replace the first element satisfying `p` by its image under `f`. -/
def updateFirst (p : α → Bool) (f : α → α) : List α → List α
  | [] => []
  | x :: xs => if p x then f x :: xs else x :: updateFirst p f xs

/-! ## MemoryStore operations (src/memory/MemoryStore.ts) -/

namespace MemoryStore

/-- `getVendorMemory`: keyed object access. -/
def getVendorMemory (s : Store) (vendorId : String) : Option VendorMemory :=
  ((s.vendorMemories.find? fun kv => kv.1 == vendorId).map Prod.snd)

/-- `findVendorByName`: case-insensitive match on canonical name or any
recorded variation, active vendors only. -/
def findVendorByName (s : Store) (vendorName : String) : Option VendorMemory :=
  let normalized := strLower (strTrim vendorName)
  ((s.vendorMemories.find? fun kv =>
      kv.2.base.isActive &&
      (strLower kv.2.canonicalName == normalized ||
       kv.2.nameVariations.any fun v => strLower v == normalized)).map Prod.snd)

/-- The `updates` argument of `updateVendorMemory`. -/
structure VendorUpdates where
  canonicalName : Option String
  nameVariation : Option String
  fieldMapping : Option FieldMapping
  behavior : Option VendorBehavior
  taxId : Option String
  deriving DecidableEq, Repr

/-- An all-absent update (JS `{}`). -/
def VendorUpdates.empty : VendorUpdates := ⟨none, none, none, none, none⟩

/-- Set a field mapping under its source-field key (JS keyed assignment). -/
def setMapping (m : List (String × FieldMapping)) (fm : FieldMapping) :
    List (String × FieldMapping) :=
  if m.any fun kv => kv.1 == fm.sourceField then
    updateFirst (fun kv => kv.1 == fm.sourceField) (fun kv => (kv.1, fm)) m
  else m ++ [(fm.sourceField, fm)]

/-- The existing-vendor mutation of `updateVendorMemory`. -/
def applyVendorUpdates (existing : VendorMemory) (u : VendorUpdates) (now : ℤ) :
    VendorMemory :=
  let e1 := match u.nameVariation with
    | some nv =>
        if existing.nameVariations.contains nv then existing
        else { existing with nameVariations := existing.nameVariations ++ [nv] }
    | none => existing
  let e2 := match u.fieldMapping with
    | some fm => { e1 with fieldMappings := setMapping e1.fieldMappings fm }
    | none => e1
  let e3 := match u.behavior with
    | some b => { e2 with behaviors := e2.behaviors.merge b }
    | none => e2
  let e4 := match u.canonicalName with
    | some cn => { e3 with canonicalName := cn }
    | none => e3
  let e5 := match u.taxId with
    | some t => { e4 with taxId := some t }
    | none => e4
  { e5 with base := { e5.base with
      updatedAt := now,
      confidence := reinforce e5.base.confidence,
      reinforcementCount := e5.base.reinforcementCount + 1 } }

/-- `updateVendorMemory`: reinforce-and-merge an existing vendor keyed by
`vendorId`, or create a new one (`newId` models the `generateId('vendor')`
call). -/
def updateVendorMemory (s : Store) (vendorId : String) (u : VendorUpdates)
    (newId : String) (now : ℤ) : VendorMemory × Store :=
  match getVendorMemory s vendorId with
  | some existing =>
      let ex := applyVendorUpdates existing u now
      let vms := updateFirst (fun kv => kv.1 == vendorId) (fun kv => (kv.1, ex))
        s.vendorMemories
      (ex, { s with vendorMemories := vms })
  | none =>
      let newVendor : VendorMemory :=
        { base := ⟨newId, now, now, initialConfidence, 1, 0, true⟩
          canonicalName := u.canonicalName.getD vendorId
          canonicalId := vendorId
          nameVariations := match u.nameVariation with | some nv => [nv] | none => []
          fieldMappings := match u.fieldMapping with
            | some fm => [(fm.sourceField, fm)] | none => []
          behaviors := u.behavior.getD VendorBehavior.empty
          taxId := u.taxId }
      (newVendor, { s with vendorMemories := s.vendorMemories ++ [(vendorId, newVendor)] })

/-- `addVendorFieldMapping`: set a mapping on an existing vendor, else no-op. -/
def addVendorFieldMapping (s : Store) (vendorId : String) (fm : FieldMapping)
    (now : ℤ) : Store :=
  if (s.vendorMemories.any fun kv => kv.1 == vendorId) then
    { s with vendorMemories :=
              updateFirst (fun kv => kv.1 == vendorId)
                (fun kv => (kv.1, { kv.2 with
                  fieldMappings := setMapping kv.2.fieldMappings fm,
                  base := { kv.2.base with updatedAt := now } })) s.vendorMemories }
  else s

/-- The parameter object of `recordCorrection`. -/
structure CorrectionParams where
  pattern : CorrectionPattern
  suggestedAction : String
  vendorId : Option String
  humanApproved : Bool
  deriving DecidableEq, Repr

/-- `findSimilarCorrection` (private): first active correction with the same
pattern type and signature. -/
def findSimilarCorrection (l : List CorrectionMemory) (pattern : CorrectionPattern) :
    Option CorrectionMemory :=
  l.find? fun c =>
    c.base.isActive && c.pattern.type == pattern.type &&
    c.pattern.signature == pattern.signature

/-- `recordCorrection`: reinforce an existing similar active correction, or
create a new one with confidence 0.7 (human-approved) or `initial()`. -/
def recordCorrection (s : Store) (params : CorrectionParams) (newId : String)
    (now : ℤ) : CorrectionMemory × Store :=
  match findSimilarCorrection s.correctionMemories params.pattern with
  | some existing =>
      let ex := { existing with base := { existing.base with
        confidence := reinforce existing.base.confidence,
        reinforcementCount := existing.base.reinforcementCount + 1,
        updatedAt := now } }
      let cms := updateFirst
        (fun c => c.base.isActive && c.pattern.type == params.pattern.type &&
          c.pattern.signature == params.pattern.signature)
        (fun c => { c with base := { c.base with
          confidence := reinforce c.base.confidence,
          reinforcementCount := c.base.reinforcementCount + 1,
          updatedAt := now } }) s.correctionMemories
      (ex, { s with correctionMemories := cms })
  | none =>
      let correction : CorrectionMemory :=
        { base := ⟨newId, now, now,
            (if params.humanApproved then 0.7 else initialConfidence), 1, 0, true⟩
          pattern := params.pattern
          suggestedAction := params.suggestedAction
          vendorId := params.vendorId
          humanApproved := params.humanApproved }
      (correction, { s with correctionMemories := s.correctionMemories ++ [correction] })

/-- `findCorrections`: active corrections of a pattern type, scoped to the
given vendor (or unscoped) when a vendor id is given. -/
def findCorrections (s : Store) (patternType : PatternType)
    (vendorId : Option String) : List CorrectionMemory :=
  s.correctionMemories.filter fun c =>
    c.base.isActive && c.pattern.type == patternType &&
    (match vendorId with
     | none => true
     | some vid => c.vendorId == some vid || c.vendorId == none)

/-- Base-record update used wherever the source reinforces a found record. -/
def reinforceBase (b : MemBase) (now : ℤ) : MemBase :=
  { b with confidence := reinforce b.confidence,
           reinforcementCount := b.reinforcementCount + 1,
           updatedAt := now }

/-- Base-record update of `penalizeMemory`: penalize, count the
contradiction, and deactivate when the new confidence trips the threshold. -/
def penalizeBase (b : MemBase) (now : ℤ) : MemBase :=
  let c := penalize b.confidence
  { b with confidence := c,
           contradictionCount := b.contradictionCount + 1,
           updatedAt := now,
           isActive := if shouldDeactivate c then false else b.isActive }

/-- Is any record of any collection carrying this id (the search
`findMemoryById` performs, in its order: vendors, corrections, resolutions,
duplicates)? -/
def memoryIdExists (s : Store) (memoryId : String) : Bool :=
  (s.vendorMemories.any fun kv => kv.2.base.id == memoryId) ||
  (s.correctionMemories.any fun c => c.base.id == memoryId) ||
  (s.resolutionMemories.any fun r => r.base.id == memoryId) ||
  (s.duplicates.any fun d => d.base.id == memoryId)

/-- `reinforceMemory`: locate the record by id across the four collections in
`findMemoryById` order and reinforce it; unknown ids are a silent no-op. -/
def reinforceMemory (s : Store) (memoryId : String) (now : ℤ) : Store :=
  if s.vendorMemories.any fun kv => kv.2.base.id == memoryId then
    let vms := updateFirst (fun kv => kv.2.base.id == memoryId)
      (fun kv => (kv.1, { kv.2 with base := reinforceBase kv.2.base now }))
      s.vendorMemories
    { s with vendorMemories := vms }
  else if s.correctionMemories.any fun c => c.base.id == memoryId then
    let cms := updateFirst (fun c => c.base.id == memoryId)
      (fun c => { c with base := reinforceBase c.base now }) s.correctionMemories
    { s with correctionMemories := cms }
  else if s.resolutionMemories.any fun r => r.base.id == memoryId then
    let rms := updateFirst (fun r => r.base.id == memoryId)
      (fun r => { r with base := reinforceBase r.base now }) s.resolutionMemories
    { s with resolutionMemories := rms }
  else if s.duplicates.any fun d => d.base.id == memoryId then
    let dms := updateFirst (fun d => d.base.id == memoryId)
      (fun d => { d with base := reinforceBase d.base now }) s.duplicates
    { s with duplicates := dms }
  else s

/-- `penalizeMemory`: locate the record by id and penalize it, deactivating on
threshold; unknown ids are a silent no-op. -/
def penalizeMemory (s : Store) (memoryId : String) (now : ℤ) : Store :=
  if s.vendorMemories.any fun kv => kv.2.base.id == memoryId then
    let vms := updateFirst (fun kv => kv.2.base.id == memoryId)
      (fun kv => (kv.1, { kv.2 with base := penalizeBase kv.2.base now }))
      s.vendorMemories
    { s with vendorMemories := vms }
  else if s.correctionMemories.any fun c => c.base.id == memoryId then
    let cms := updateFirst (fun c => c.base.id == memoryId)
      (fun c => { c with base := penalizeBase c.base now }) s.correctionMemories
    { s with correctionMemories := cms }
  else if s.resolutionMemories.any fun r => r.base.id == memoryId then
    let rms := updateFirst (fun r => r.base.id == memoryId)
      (fun r => { r with base := penalizeBase r.base now }) s.resolutionMemories
    { s with resolutionMemories := rms }
  else if s.duplicates.any fun d => d.base.id == memoryId then
    let dms := updateFirst (fun d => d.base.id == memoryId)
      (fun d => { d with base := penalizeBase d.base now }) s.duplicates
    { s with duplicates := dms }
  else s

/-- The parameter object of `recordResolution`. -/
structure ResolutionParams where
  decision : HumanDecision
  relatedMemoryId : Option String
  contextHash : Option String
  deriving DecidableEq, Repr

/-- `recordResolution`: append to an active resolution sharing the context
hash and reinforce it, or create one with confidence 0.6; a rejected decision
on a fresh resolution also penalizes the linked memory. -/
def recordResolution (s : Store) (params : ResolutionParams) (newId : String)
    (now : ℤ) : ResolutionMemory × Store :=
  let contextHash := params.contextHash.getD (generateHash
    [("type", params.decision.decisionType), ("action", params.decision.action)])
  match s.resolutionMemories.find? fun r => r.base.isActive && r.contextHash == contextHash with
  | some existing =>
      let ex := { existing with
        decisions := existing.decisions ++ [params.decision],
        base := reinforceBase existing.base now }
      let rms := updateFirst (fun r => r.base.isActive && r.contextHash == contextHash)
        (fun r => { r with decisions := r.decisions ++ [params.decision],
                           base := reinforceBase r.base now }) s.resolutionMemories
      (ex, { s with resolutionMemories := rms })
  | none =>
      let resolution : ResolutionMemory :=
        { base := ⟨newId, now, now, 0.6, 1, 0, true⟩
          decisions := [params.decision]
          relatedMemoryId := params.relatedMemoryId
          contextHash := contextHash }
      let s1 := { s with resolutionMemories := s.resolutionMemories ++ [resolution] }
      let s2 := match params.relatedMemoryId with
        | some rid => if params.decision.action == "rejected" then penalizeMemory s1 rid now else s1
        | none => s1
      (resolution, s2)

/-- `findResolution`: first active resolution with the context hash. -/
def findResolution (s : Store) (contextHash : String) : Option ResolutionMemory :=
  s.resolutionMemories.find? fun r => r.base.isActive && r.contextHash == contextHash

/-- The parameter object of `recordDuplicate`. -/
structure DuplicateParams where
  vendorId : String
  invoiceNumber : String
  invoiceDate : String
  amount : ℚ
  invoiceId : String
  deriving DecidableEq, Repr

/-- The duplicate-detection hash `recordDuplicate` stores: note the JSON key
is `vendorId` and the invoice number is only lower-cased and trimmed. -/
def dupStoreHash (params : DuplicateParams) : String :=
  generateHash [("vendorId", params.vendorId),
                ("invoiceNumber", strLower (strTrim params.invoiceNumber)),
                ("dateKey", strTakeN 7 params.invoiceDate)]

/-- `calculateDuplicateSimilarity` (private): 0.5 for an exact
(case-insensitive) invoice-number match plus 0.5 / 0.3 for an amount within
1% / 5% of the stored amount.  When the stored amount is zero the JS division
yields NaN or Infinity and both comparisons are false, so the amount
contributes nothing. -/
def calculateDuplicateSimilarity (existing : DuplicateRecord)
    (params : DuplicateParams) : ℚ :=
  let numberScore : ℚ :=
    if strLower existing.invoiceNumber == strLower params.invoiceNumber then 0.5 else 0
  let amountScore : ℚ :=
    if existing.amount = 0 then 0
    else
      let amountDiff := |existing.amount - params.amount| / existing.amount
      if amountDiff < 0.01 then 0.5 else if amountDiff < 0.05 then 0.3 else 0
  numberScore + amountScore

/-- `findDuplicate`: first duplicate record with the hash. -/
def findDuplicate (s : Store) (hash : String) : Option DuplicateRecord :=
  s.duplicates.find? fun d => d.duplicateHash == hash

/-- `recordDuplicate`: when an existing record matches the hash with fuzzy
similarity above 0.8, append the invoice id to it and reinforce its
confidence (without counting a reinforcement); otherwise — including a hash
hit at or below the threshold — push a fresh first-occurrence record. -/
def recordDuplicate (s : Store) (params : DuplicateParams) (newId : String)
    (now : ℤ) : Bool × Store :=
  let duplicateHash := dupStoreHash params
  let existing := s.duplicates.find? fun d => d.duplicateHash == duplicateHash
  let hit : Bool := match existing with
    | some e => decide (calculateDuplicateSimilarity e params > 0.8)
    | none => false
  if hit then
    let ds := updateFirst (fun d => d.duplicateHash == duplicateHash)
      (fun d => { d with
        duplicateInvoiceIds := d.duplicateInvoiceIds ++ [params.invoiceId],
        base := { d.base with updatedAt := now,
                              confidence := reinforce d.base.confidence } }) s.duplicates
    (true, { s with duplicates := ds })
  else
    let record : DuplicateRecord :=
      { base := ⟨newId, now, now, initialConfidence, 1, 0, true⟩
        duplicateHash := duplicateHash
        originalInvoiceId := params.invoiceId
        duplicateInvoiceIds := []
        vendorId := params.vendorId
        invoiceNumber := params.invoiceNumber
        amount := params.amount
        confirmedDuplicate := false
        resolution := "pending" }
    (false, { s with duplicates := s.duplicates ++ [record] })

/-- `applyDecayToAll`: the per-record step — inactive records are skipped,
and a changed confidence is written back with deactivation on threshold
(`updatedAt` is not touched by decay). -/
def decayBase (b : MemBase) (now : ℤ) : MemBase :=
  if !b.isActive then b
  else
    let newConfidence := applyDecay b.confidence b.updatedAt now
    if newConfidence = b.confidence then b
    else { b with confidence := newConfidence,
                  isActive := if shouldDeactivate newConfidence then false else b.isActive }

/-- `applyDecayToAll`: apply time decay to every active record of the four
collections. -/
def applyDecayToAll (s : Store) (now : ℤ) : Store :=
  { s with
    vendorMemories := s.vendorMemories.map fun kv => (kv.1, { kv.2 with base := decayBase kv.2.base now }),
    correctionMemories := s.correctionMemories.map fun c => { c with base := decayBase c.base now },
    resolutionMemories := s.resolutionMemories.map fun r => { r with base := decayBase r.base now },
    duplicates := s.duplicates.map fun d => { d with base := decayBase d.base now } }

end MemoryStore

/-! ## Duplicate detection module (src/core/duplicates.ts) -/

/-- PROCESSING.SKIP_LEARNING_FOR_DUPLICATES from src/config.ts. -/
def SKIP_LEARNING_FOR_DUPLICATES : Bool := true

/-- DUPLICATE_DETECTION.DUPLICATE_CONFIDENCE_PENALTY from src/config.ts. -/
def DUPLICATE_CONFIDENCE_PENALTY : ℚ := 0.5

/-- Result of `checkForDuplicate` (interface DuplicateCheckResult). -/
structure DuplicateCheckResult where
  isDuplicate : Bool
  isConfirmed : Bool
  similarityScore : ℚ
  originalInvoiceId : Option String
  reason : Option String
  duplicateHash : String
  skipLearning : Bool
  deriving DecidableEq, Repr

namespace Duplicates

/-- `normalizeVendorName` from duplicates.ts: lower-case, trim, strip all
characters outside `[a-z0-9]`. -/
def normalizeVendorName (name : String) : String :=
  keepAlnum (strTrim (strLower name))

/-- `normalizeInvoiceNumber` from duplicates.ts: the same normalization. -/
def normalizeInvoiceNumber (invoiceNumber : String) : String :=
  keepAlnum (strTrim (strLower invoiceNumber))

/-- `generateDuplicateHash` from duplicates.ts: note the JSON key `vendorKey`,
the always-name vendor key and the fully normalized invoice number — all
three differ from what `MemoryStore.recordDuplicate` stores. -/
def generateDuplicateHash (invoice : InvoiceInput) : String :=
  generateHash [("vendorKey", normalizeVendorName invoice.vendor.name),
                ("invoiceNumber", normalizeInvoiceNumber invoice.invoiceNumber),
                ("dateKey", strTakeN 7 invoice.invoiceDate)]

/-- `checkForDuplicate` from duplicates.ts: exact lookup of the detector hash
in the store's duplicate collection; detection alone never mutates state. -/
def checkForDuplicate (invoice : InvoiceInput) (s : Store) : DuplicateCheckResult :=
  let duplicateHash := generateDuplicateHash invoice
  match MemoryStore.findDuplicate s duplicateHash with
  | some exactMatch =>
      { isDuplicate := true
        isConfirmed := exactMatch.confirmedDuplicate
        similarityScore := 1.0
        originalInvoiceId := some exactMatch.originalInvoiceId
        reason := some "Exact hash match found"
        duplicateHash := duplicateHash
        skipLearning := SKIP_LEARNING_FOR_DUPLICATES }
  | none =>
      { isDuplicate := false
        isConfirmed := false
        similarityScore := 0
        originalInvoiceId := none
        reason := none
        duplicateHash := duplicateHash
        skipLearning := false }

/-- The store parameters both duplicate-recording wrappers build from the
invoice: the vendor id when present, else the normalized name. -/
def dupParamsOfInvoice (invoice : InvoiceInput) : MemoryStore.DuplicateParams :=
  { vendorId := invoice.vendor.id.getD (normalizeVendorName invoice.vendor.name)
    invoiceNumber := invoice.invoiceNumber
    invoiceDate := invoice.invoiceDate
    amount := invoice.totalAmount
    invoiceId := invoice.invoiceId }

/-- `recordDuplicate` from duplicates.ts (the check result argument is
unused in the source as well). -/
def recordDuplicate (s : Store) (invoice : InvoiceInput) (newId : String)
    (now : ℤ) : Store :=
  (MemoryStore.recordDuplicate s (dupParamsOfInvoice invoice) newId now).2

/-- `recordInvoiceForDuplicateDetection` from duplicates.ts (the hash
argument is unused in the source as well). -/
def recordInvoiceForDuplicateDetection (s : Store) (invoice : InvoiceInput)
    (newId : String) (now : ℤ) : Store :=
  (MemoryStore.recordDuplicate s (dupParamsOfInvoice invoice) newId now).2

end Duplicates

/-! ## A small matcher for the source's regular expressions

The rule modules test fixed case-insensitive regular expressions built from
literals, optional characters, whitespace runs and digit runs (with two
capturing digit groups in the Skonto patterns).  Each regex is compiled by
hand into a token list; alternation groups are expanded into one pattern per
branch.  All tokens are matched greedily, which is complete for these
patterns because no token can consume a character the following token
accepts. -/

/-- Pattern token. -/
inductive Tok where
  /-- A literal run (stored lower-case). -/
  | lit (s : String)
  /-- An optional single character, e.g. `\.?` or `s?`. -/
  | optC (c : Char)
  /-- `\s*`. -/
  | ws0
  /-- `\s+`. -/
  | ws1
  /-- The class `[.,]`. -/
  | sepC
  /-- A single `\d`. -/
  | digitC
  /-- An uncaptured `\d+`. -/
  | digits1
  /-- A captured `(\d+)`. -/
  | capInt
  /-- A captured `(\d+(?:[.,]\d+)?)`. -/
  | capDec
  deriving DecidableEq, Repr

/-- Whitespace class `\s` of the matcher (the JS class). -/
def isWsChar (c : Char) : Bool := isJsWs c

/-- Digit class `\d`. -/
def isDigitChar (c : Char) : Bool := '0' ≤ c && c ≤ '9'

/-- Match a token list at the head of a character list; `some (captures,
rest)` on success. -/
def matchToks : List Tok → List Char → Option (List String × List Char)
  | [], cs => some ([], cs)
  | Tok.lit s :: ts, cs =>
      if listStartsWith s.toList cs then matchToks ts (cs.drop s.toList.length) else none
  | Tok.optC c :: ts, cs =>
      match cs with
      | d :: rest => if d == c then matchToks ts rest else matchToks ts cs
      | [] => matchToks ts cs
  | Tok.ws0 :: ts, cs => matchToks ts (cs.dropWhile isWsChar)
  | Tok.ws1 :: ts, cs =>
      if (cs.takeWhile isWsChar).isEmpty then none
      else matchToks ts (cs.dropWhile isWsChar)
  | Tok.sepC :: ts, cs =>
      match cs with
      | d :: rest => if d == '.' || d == ',' then matchToks ts rest else none
      | [] => none
  | Tok.digitC :: ts, cs =>
      match cs with
      | d :: rest => if isDigitChar d then matchToks ts rest else none
      | [] => none
  | Tok.digits1 :: ts, cs =>
      if (cs.takeWhile isDigitChar).isEmpty then none
      else matchToks ts (cs.dropWhile isDigitChar)
  | Tok.capInt :: ts, cs =>
      let ds := cs.takeWhile isDigitChar
      if ds.isEmpty then none
      else
        (matchToks ts (cs.dropWhile isDigitChar)).map fun r =>
          (String.mk ds :: r.1, r.2)
  | Tok.capDec :: ts, cs =>
      let ds := cs.takeWhile isDigitChar
      if ds.isEmpty then none
      else
        let rest := cs.dropWhile isDigitChar
        let withFrac : Option (List Char × List Char) :=
          match rest with
          | c :: rest2 =>
              if (c == '.' || c == ',') && !(rest2.takeWhile isDigitChar).isEmpty then
                some (ds ++ [c] ++ rest2.takeWhile isDigitChar, rest2.dropWhile isDigitChar)
              else none
          | [] => none
        match withFrac with
        | some (cap, rest3) =>
            (matchToks ts rest3).map fun r => (String.mk cap :: r.1, r.2)
        | none =>
            (matchToks ts rest).map fun r => (String.mk ds :: r.1, r.2)

/-- Search a pattern anywhere in a character list, leftmost start first. -/
def searchToks (p : List Tok) : List Char → Option (List String)
  | [] => (matchToks p []).map Prod.fst
  | c :: rest =>
      match matchToks p (c :: rest) with
      | some (caps, _) => some caps
      | none => searchToks p rest

/-- Case-insensitive regex test (`/.../i.test(s)`). -/
def testPat (p : List Tok) (s : String) : Bool :=
  (searchToks p (strLower s).toList).isSome

/-- Case-insensitive regex match with captures (`s.match(/.../i)`). -/
def matchPat (p : List Tok) (s : String) : Option (List String) :=
  searchToks p (strLower s).toList

/-- Parse the digits of a captured integer group (`parseInt(m, 10)`). -/
def parseIntCap (s : String) : ℤ :=
  (s.toList.foldl (fun a c => a * 10 + (c.toNat - '0'.toNat)) 0 : ℕ)

/-- Parse a captured decimal group after `replace(',', '.')`
(`parseFloat`). -/
def parseDecCap (s : String) : ℚ :=
  match s.toList.span fun c => isDigitChar c with
  | (ds, []) => (parseIntCap (String.mk ds) : ℚ)
  | (ds, _ :: fs) =>
      (parseIntCap (String.mk ds) : ℚ) +
        (parseIntCap (String.mk fs) : ℚ) / ((10 : ℚ) ^ fs.length)

/-! ## Decision output types (src/types/index.ts) -/

/-- Proposed correction (interface ProposedCorrection).  Values are the
strings the source builds; `source` is absent for heuristic corrections. -/
structure ProposedCorrection where
  field : String
  originalValue : String
  proposedValue : String
  confidence : ℚ
  reasoning : String
  source : Option String
  autoApplied : Bool
  deriving DecidableEq, Repr

/-- Normalized vendor block. -/
structure NormalizedVendor where
  normalizedName : String
  canonicalId : String
  originalName : String
  deriving DecidableEq, Repr

/-- Normalized line item (interface NormalizedLineItem). -/
structure NormalizedLineItem where
  description : String
  quantity : ℚ
  unitPrice : ℚ
  amount : ℚ
  category : Option String
  productCode : Option String
  deriving DecidableEq, Repr

/-- Normalized invoice (interface NormalizedInvoice, plus the serviceDate and
paymentTerms fields vendorRules.ts writes). -/
structure NormalizedInvoice where
  invoiceId : String
  vendor : NormalizedVendor
  invoiceDate : String
  dueDate : Option String
  serviceDate : Option String
  invoiceNumber : String
  totalAmount : ℚ
  currency : String
  lineItems : List NormalizedLineItem
  poNumber : Option String
  paymentTerms : Option PaymentTerms
  processingTimestamp : ℤ
  normalizationVersion : String
  deriving DecidableEq, Repr

/-- Audit step discriminator. -/
inductive AuditStep where
  | recall | apply | decide | learn
  deriving DecidableEq, Repr

/-- Audit trail entry (interface AuditTrailEntry). -/
structure AuditTrailEntry where
  step : AuditStep
  timestamp : ℤ
  details : String
  deriving DecidableEq, Repr

/-- The data payload of a memory update entry (the fields the learn phase
actually writes; reinforce entries carry the empty object). -/
inductive UpdateData where
  | emptyData
  | vendorCreate (canonicalId canonicalName : String) (nameVariations : List String)
      (confidence : ℚ)
  | vendorVariation (nameVariations : List String)
  | dupCreate (duplicateHash originalInvoiceId vendorId invoiceNumber : String)
      (amount : ℚ)
  deriving DecidableEq, Repr

/-- Memory update entry (interface MemoryUpdate). -/
structure MemoryUpdate where
  operation : String
  memoryType : String
  recordId : Option String
  data : UpdateData
  reason : String
  deriving DecidableEq, Repr

/-- Pipeline output (interface InvoiceDecisionOutput). -/
structure InvoiceDecisionOutput where
  normalizedInvoice : NormalizedInvoice
  proposedCorrections : List ProposedCorrection
  requiresHumanReview : Bool
  reasoning : String
  confidenceScore : ℚ
  memoryUpdates : List MemoryUpdate
  auditTrail : List AuditTrailEntry
  deriving DecidableEq, Repr

/-! ## Vendor rules module (src/core/rules/vendorRules.ts) -/

namespace VendorRules

/-- Result of `applyVendorMemories` (interface VendorApplyResult). -/
structure VendorApplyResult where
  normalizedInvoice : NormalizedInvoice
  corrections : List ProposedCorrection
  notes : List String
  vendorConfidence : ℚ
  detectedPaymentTerms : Option PaymentTerms
  deriving DecidableEq, Repr

/-- Known-vendor discriminator (the keys of KNOWN_VENDORS). -/
inductive VendorType where
  | SUPPLIER_GMBH | PARTS_AG | FREIGHT_CO
  deriving DecidableEq, Repr

/-- `identifyVendorType`: first key whose pattern list has a substring of the
normalized name (Object.entries order: supplier, parts, freight). -/
def identifyVendorType (vendorName : String) : Option VendorType :=
  let normalized := strTrim (strLower vendorName)
  if ["supplier gmbh", "supplier", "lieferant gmbh"].any
      (fun p => strIncludes normalized p) then some VendorType.SUPPLIER_GMBH
  else if ["parts ag", "parts", "teile ag"].any
      (fun p => strIncludes normalized p) then some VendorType.PARTS_AG
  else if ["freight & co", "freight and co", "freight co", "fracht & co"].any
      (fun p => strIncludes normalized p) then some VendorType.FREIGHT_CO
  else none

/-- Truthy string-map access (JS `metadata[k]` used as a condition: an absent
key and an empty-string value are both falsy). -/
def metaTruthy (m : List (String × String)) (k : String) : Option String :=
  match metaGet m k with
  | some v => if v == "" then none else some v
  | none => none

/-- `applyFieldMappings`: one correction per stored mapping whose source
field is present (`!== undefined`) in the invoice metadata. -/
def applyFieldMappings (invoice : InvoiceInput) (vendorMemory : VendorMemory)
    (autoApplyThreshold : ℚ) : List ProposedCorrection × List String :=
  vendorMemory.fieldMappings.foldl
    (fun acc kv =>
      match metaGet invoice.metadata kv.1 with
      | some value =>
          let mapping := kv.2
          let shouldAutoApply := decide (mapping.confidence ≥ autoApplyThreshold)
          let corr : ProposedCorrection :=
            { field := mapping.targetField
              originalValue := ""
              proposedValue := value
              confidence := mapping.confidence
              reasoning := "Field mapping: \"" ++ kv.1 ++ "\" -> \"" ++
                mapping.targetField ++ "\" (" ++ natDigits mapping.occurrenceCount ++
                " occurrences)"
              source := some vendorMemory.base.id
              autoApplied := shouldAutoApply }
          let note := if shouldAutoApply then
              "Applied field mapping: " ++ kv.1 ++ " -> " ++ mapping.targetField ++
                " = \"" ++ value ++ "\""
            else
              "Suggested field mapping: " ++ kv.1 ++ " -> " ++ mapping.targetField
          (acc.1 ++ [corr], acc.2 ++ [note])
      | none => acc)
    ([], [])

/-- `analyzeLineItemsForPO`: the truthy product codes of the line items. -/
def analyzeLineItemsForPO (invoice : InvoiceInput) : List String :=
  invoice.lineItems.foldl
    (fun acc item =>
      match item.productCode with
      | some pc => if pc == "" then acc else acc ++ [pc]
      | none => acc)
    []

/-- `applySupplierGmbHRules`: Leistungsdatum mapping, PO note, line-item
analysis note. -/
def applySupplierGmbHRules (invoice : InvoiceInput)
    (vendorMemory : Option VendorMemory) (autoApplyThreshold : ℚ) :
    List ProposedCorrection × List String :=
  let leistungsdatum :=
    match metaTruthy invoice.metadata "Leistungsdatum" with
    | some v => some v
    | none => metaTruthy invoice.metadata "leistungsdatum"
  let serviceDateFalsy :=
    match invoice.serviceDate with
    | some d => d == ""
    | none => true
  let step1 : List ProposedCorrection × List String :=
    match leistungsdatum with
    | some l =>
        if serviceDateFalsy then
          let confidence :=
            match vendorMemory with
            | some vm => min (vm.base.confidence + 0.1) 0.95
            | none => (0.7 : ℚ)
          let shouldAutoApply := decide (confidence ≥ autoApplyThreshold)
          let corr : ProposedCorrection :=
            { field := "serviceDate"
              originalValue := ""
              proposedValue := l
              confidence := confidence
              reasoning := "Supplier GmbH: Mapped \"Leistungsdatum\" field to serviceDate"
              source := vendorMemory.map fun vm => vm.base.id
              autoApplied := shouldAutoApply }
          let note := if shouldAutoApply then
              "Auto-applied: Leistungsdatum \"" ++ l ++ "\" -> serviceDate"
            else
              "Suggested: Map Leistungsdatum \"" ++ l ++ "\" to serviceDate"
          ([corr], [note])
        else ([], [])
    | none => ([], [])
  let step2 : List String :=
    match invoice.poNumber, vendorMemory with
    | some po, some vm =>
        if po == "" then []
        else
          let poConfidence := vm.base.confidence * 0.9
          if poConfidence ≥ 0.6 then
            ["PO-" ++ po ++ " reference found, confidence: " ++
              fmtFixed0 (poConfidence * 100) ++ "%"]
          else []
    | _, _ => []
  let step3 : List String :=
    let lineItemMatches := analyzeLineItemsForPO invoice
    if lineItemMatches.length > 0 then
      ["Found " ++ natDigits lineItemMatches.length ++
        " line item(s) potentially matching PO"]
    else []
  (step1.1, step1.2 ++ step2 ++ step3)

/-- The VAT-inclusion markers of `detectVATIncluded`, compiled by hand from
the source regexes, with marker text and rate. -/
def vatMarkers : List (List Tok × String × ℚ) :=
  [([Tok.lit "mwst", Tok.optC '.', Tok.ws0, Tok.lit "inkl"], "MwSt. inkl.", 19),
   ([Tok.lit "price", Tok.optC 's', Tok.ws1, Tok.lit "incl", Tok.optC '.', Tok.ws0,
     Tok.lit "vat"], "Prices incl. VAT", 19),
   ([Tok.lit "inkl", Tok.optC '.', Tok.ws0, Tok.lit "mwst"], "inkl. MwSt.", 19),
   ([Tok.lit "including", Tok.ws1, Tok.lit "vat"], "including VAT", 20),
   ([Tok.lit "inklusive", Tok.ws1, Tok.lit "mehrwertsteuer"],
     "inklusive Mehrwertsteuer", 19),
   ([Tok.lit "brutto"], "Brutto", 19)]

/-- `detectVATIncluded`: first marker matching the raw text or the
`vatInfo` metadata string. -/
def detectVATIncluded (invoice : InvoiceInput) : Option (String × ℚ) :=
  let rawText := invoice.rawText.getD ""
  let vatInfo := (metaTruthy invoice.metadata "vatInfo").getD ""
  ((vatMarkers.find? fun m => testPat m.1 rawText || testPat m.1 vatInfo).map
    fun m => m.2)

/-- `recomputeVATFromGross`: split a gross amount into net and tax at the
rate, each rounded to cents. -/
def recomputeVATFromGross (grossAmount vatRate : ℚ) : ℚ × ℚ :=
  let netAmount := grossAmount / (1 + vatRate / 100)
  let taxAmount := grossAmount - netAmount
  ((jsRound (netAmount * 100) : ℚ) / 100, (jsRound (taxAmount * 100) : ℚ) / 100)

/-- The currency-extraction patterns of `extractCurrencyFromRawText`. -/
def currencyPatterns : List (List Tok × String) :=
  let amt : List Tok := [Tok.digits1, Tok.sepC, Tok.digitC, Tok.digitC]
  [(amt ++ [Tok.ws0, Tok.lit "eur"], "EUR"),
   ([Tok.lit "eur", Tok.ws0] ++ amt, "EUR"),
   ([Tok.lit "€", Tok.ws0] ++ amt, "EUR"),
   (amt ++ [Tok.ws0, Tok.lit "€"], "EUR"),
   (amt ++ [Tok.ws0, Tok.lit "usd"], "USD"),
   ([Tok.lit "usd", Tok.ws0] ++ amt, "USD"),
   ([Tok.lit "$", Tok.ws0] ++ amt, "USD"),
   (amt ++ [Tok.ws0, Tok.lit "chf"], "CHF"),
   ([Tok.lit "chf", Tok.ws0] ++ amt, "CHF"),
   (amt ++ [Tok.ws0, Tok.lit "gbp"], "GBP"),
   ([Tok.lit "£", Tok.ws0] ++ amt, "GBP")]

/-- `extractCurrencyFromRawText`: first pattern matching the raw text. -/
def extractCurrencyFromRawText (rawText : Option String) : Option String :=
  match rawText with
  | none => none
  | some t =>
      if t == "" then none
      else ((currencyPatterns.find? fun p => testPat p.1 t).map fun p => p.2)

/-- `applyPartsAGRules`: VAT recomputation and currency extraction. -/
def applyPartsAGRules (invoice : InvoiceInput)
    (vendorMemory : Option VendorMemory) (autoApplyThreshold : ℚ) :
    List ProposedCorrection × List String :=
  let step1 : List ProposedCorrection × List String :=
    match detectVATIncluded invoice with
    | some (marker, rate) =>
        let vat := recomputeVATFromGross invoice.totalAmount rate
        let netAmount := vat.1
        let taxAmount := vat.2
        let confidence :=
          match vendorMemory with
          | some vm => min (vm.base.confidence + 0.15) 0.9
          | none => (0.65 : ℚ)
        let auto := decide (confidence ≥ autoApplyThreshold)
        let c1 : ProposedCorrection :=
          { field := "taxAmount"
            originalValue := "0"
            proposedValue := fmtFixed2 taxAmount
            confidence := confidence
            reasoning := "Parts AG: Detected \"" ++ marker ++
              "\" - Recomputed VAT at " ++ fmtNum rate ++ "%"
            source := vendorMemory.map fun vm => vm.base.id
            autoApplied := auto }
        let c2 : ProposedCorrection :=
          { field := "netAmount"
            originalValue := fmtFixed2 invoice.totalAmount
            proposedValue := fmtFixed2 netAmount
            confidence := confidence
            reasoning := "Parts AG: Net amount after VAT extraction (" ++
              fmtNum rate ++ "%)"
            source := vendorMemory.map fun vm => vm.base.id
            autoApplied := auto }
        let note := "VAT included detected: \"" ++ marker ++ "\". Gross: " ++
          fmtFixed2 invoice.totalAmount ++ ", Net: " ++ fmtFixed2 netAmount ++
          ", VAT: " ++ fmtFixed2 taxAmount ++ " (" ++ fmtNum rate ++ "%)"
        ([c1, c2], [note])
    | none => ([], [])
  let step2 : List ProposedCorrection × List String :=
    if invoice.currency == "" || invoice.currency == "UNKNOWN" then
      match extractCurrencyFromRawText invoice.rawText with
      | some extractedCurrency =>
          let confirmed :=
            match vendorMemory with
            | some vm => vm.behaviors.defaultCurrency == some extractedCurrency
            | none => false
          let confidence : ℚ := if confirmed then 0.85 else 0.6
          let confirmNote : List String :=
            if confirmed then
              ["Currency \"" ++ extractedCurrency ++ "\" confirmed by vendor memory"]
            else []
          let corr : ProposedCorrection :=
            { field := "currency"
              originalValue := if invoice.currency == "" then "UNKNOWN" else invoice.currency
              proposedValue := extractedCurrency
              confidence := confidence
              reasoning := "Parts AG: Extracted currency \"" ++ extractedCurrency ++
                "\" from invoice text"
              source := vendorMemory.map fun vm => vm.base.id
              autoApplied := decide (confidence ≥ autoApplyThreshold) }
          ([corr], confirmNote ++
            ["Extracted currency \"" ++ extractedCurrency ++ "\" from rawText"])
      | none => ([], [])
    else ([], [])
  (step1.1 ++ step2.1, step1.2 ++ step2.2)

/-- JSON rendering of a metadata object in insertion order
(`JSON.stringify(metadata)`). -/
def renderMetaJson (m : List (String × String)) : String :=
  "\x7b" ++ joinWith "," (m.map renderMember) ++ "\x7d"

/-- JSON rendering of a payment-terms object; absent fields are omitted as
`JSON.stringify` omits `undefined` members. -/
def renderPaymentTerms (t : PaymentTerms) : String :=
  let ms :=
    (match t.discountPercent with
     | some q => ["\"discountPercent\":" ++ fmtNum q] | none => []) ++
    (match t.discountDays with
     | some n => ["\"discountDays\":" ++ intStr n] | none => []) ++
    (match t.netDays with
     | some n => ["\"netDays\":" ++ intStr n] | none => [])
  "\x7b" ++ joinWith "," ms ++ "\x7d"

/-- The day-unit alternation `(?:days?|tage?n?)` of the Skonto patterns. -/
def dayAlts : List (List Tok) :=
  [[Tok.lit "day", Tok.optC 's'], [Tok.lit "tag", Tok.optC 'e', Tok.optC 'n']]

/-- The `(?:within|innerhalb|bei\s+zahlung\s+binnen)` alternation. -/
def withinAlts : List (List Tok) :=
  [[Tok.lit "within"], [Tok.lit "innerhalb"],
   [Tok.lit "bei", Tok.ws1, Tok.lit "zahlung", Tok.ws1, Tok.lit "binnen"]]

/-- The three Skonto regexes of `detectSkontoTerms`, alternation groups
expanded into one token list per branch, kept in branch order. -/
def skontoPatterns : List (List Tok) :=
  (withinAlts.flatMap fun w => dayAlts.map fun d =>
    [Tok.capDec, Tok.ws0, Tok.lit "%", Tok.ws0, Tok.lit "skonto", Tok.ws0] ++ w ++
      [Tok.ws0, Tok.capInt, Tok.ws0] ++ d) ++
  (withinAlts.flatMap fun w => dayAlts.map fun d =>
    [Tok.lit "skonto", Tok.ws0, Tok.capDec, Tok.ws0, Tok.lit "%", Tok.ws0] ++ w ++
      [Tok.ws0, Tok.capInt, Tok.ws0] ++ d) ++
  (([[Tok.lit "discount"], [Tok.lit "rabatt"]].flatMap fun disc =>
    [[Tok.lit "within"], [Tok.lit "innerhalb"]].flatMap fun w =>
      dayAlts.map fun d =>
        [Tok.capDec, Tok.ws0, Tok.lit "%", Tok.ws0] ++ disc ++ [Tok.ws0] ++ w ++
          [Tok.ws0, Tok.capInt, Tok.ws0] ++ d))

/-- The net-days regex `(?:net|netto)\s*(?:within|innerhalb)?\s*(\d+)\s*DAY`,
expanded (optional group: present branches before the absent one). -/
def netPatterns : List (List Tok) :=
  [[Tok.lit "net"], [Tok.lit "netto"]].flatMap fun n =>
    [[Tok.lit "within"], [Tok.lit "innerhalb"], []].flatMap fun w =>
      dayAlts.map fun d =>
        n ++ [Tok.ws0] ++ w ++ [Tok.ws0, Tok.capInt, Tok.ws0] ++ d

/-- `detectSkontoTerms`: match the Skonto patterns against the raw text
joined with the serialized metadata; on a hit, also look for net-payment
days. -/
def detectSkontoTerms (invoice : InvoiceInput) : Option PaymentTerms :=
  let searchText := invoice.rawText.getD "" ++ " " ++ renderMetaJson invoice.metadata
  match (skontoPatterns.map fun p => matchPat p searchText).find? Option.isSome with
  | some (some (m1 :: m2 :: _)) =>
      let discountPercent := parseDecCap m1
      let discountDays := parseIntCap m2
      let netDays :=
        match (netPatterns.map fun p => matchPat p searchText).find? Option.isSome with
        | some (some (n1 :: _)) => some (parseIntCap n1)
        | _ => none
      some { discountPercent := some discountPercent,
             discountDays := some discountDays,
             netDays := netDays }
  | _ => none

/-- The shipping-description patterns of `isShippingLineItem`. -/
def shippingPatterns : List (List Tok) :=
  [[Tok.lit "seefracht"], [Tok.lit "shipping"], [Tok.lit "freight"],
   [Tok.lit "fracht"], [Tok.lit "versand"], [Tok.lit "lieferung"],
   [Tok.lit "transport"], [Tok.lit "luftfracht"],
   [Tok.lit "express", Tok.ws0, Tok.lit "delivery"]]

/-- `isShippingLineItem`. -/
def isShippingLineItem (description : String) : Bool :=
  shippingPatterns.any fun p => testPat p description

/-- `applyFreightCoRules`: Skonto extraction and FREIGHT SKU mapping. -/
def applyFreightCoRules (invoice : InvoiceInput)
    (vendorMemory : Option VendorMemory) (autoApplyThreshold : ℚ) :
    List ProposedCorrection × List String × Option PaymentTerms :=
  let skontoTerms := detectSkontoTerms invoice
  let step1 : List ProposedCorrection × List String :=
    match skontoTerms with
    | some t =>
        let note := "Detected Skonto terms: " ++
          fmtNum (t.discountPercent.getD 0) ++ "% within " ++
          intStr (t.discountDays.getD 0) ++ " days" ++
          (match t.netDays with
           | some n => ", net " ++ intStr n ++ " days"
           | none => "")
        let corr : ProposedCorrection :=
          { field := "paymentTerms"
            originalValue := match invoice.paymentTerms with
              | some pt => renderPaymentTerms pt
              | none => "\x7b\x7d"
            proposedValue := renderPaymentTerms t
            confidence := 0.8
            reasoning := "Freight & Co: Extracted Skonto terms from invoice"
            source := vendorMemory.map fun vm => vm.base.id
            autoApplied := true }
        ([corr], [note])
    | none => ([], [])
  let step2 : List ProposedCorrection × List String :=
    (invoice.lineItems.enum.foldl
      (fun acc itemIdx =>
        let i := itemIdx.1
        let item := itemIdx.2
        let productCodeFalsy := match item.productCode with
          | some pc => pc == ""
          | none => true
        if isShippingLineItem item.description && productCodeFalsy then
          let confidence :=
            match vendorMemory with
            | some vm => min (vm.base.confidence + 0.2) 0.95
            | none => (0.7 : ℚ)
          let corr : ProposedCorrection :=
            { field := "lineItems[" ++ natDigits i ++ "].productCode"
              originalValue := (item.productCode.getD "")
              proposedValue := "FREIGHT"
              confidence := confidence
              reasoning := "Freight & Co: Mapped shipping description \"" ++
                item.description ++ "\" to SKU FREIGHT"
              source := vendorMemory.map fun vm => vm.base.id
              autoApplied := decide (confidence ≥ autoApplyThreshold) }
          let note := "Suggested SKU \"FREIGHT\" for line item: \"" ++
            item.description ++ "\" (confidence: " ++
            fmtFixed0 (confidence * 100) ++ "%)"
          (acc.1 ++ [corr], acc.2 ++ [note])
        else acc)
      ([], []))
  (step1.1 ++ step2.1, step1.2 ++ step2.2, skontoTerms)

/-- `applyVendorMemories` from vendorRules.ts: name normalization, field
mappings, the three vendor-specific rule sets, and the normalized invoice.
`newVendorId` models the `generateId('vendor')` fallback for an absent
vendor id. -/
def applyVendorMemories (invoice : InvoiceInput)
    (vendorMemory : Option VendorMemory) (autoApplyThreshold : ℚ)
    (newVendorId : String) (now : ℤ) : VendorApplyResult :=
  let defaultCanonicalId := match invoice.vendor.id with
    | some i => if i == "" then newVendorId else i
    | none => newVendorId
  let vendorType := identifyVendorType invoice.vendor.name
  let memPart :
      List ProposedCorrection × List String × String × String × ℚ :=
    match vendorMemory with
    | some vm =>
        let renamePart : List ProposedCorrection × List String × String × String :=
          if vm.canonicalName ≠ invoice.vendor.name then
            let corr : ProposedCorrection :=
              { field := "vendor.name"
                originalValue := invoice.vendor.name
                proposedValue := vm.canonicalName
                confidence := vm.base.confidence
                reasoning := "Vendor name normalized based on " ++
                  natDigits vm.base.reinforcementCount ++ " previous occurrences"
                source := some vm.base.id
                autoApplied := decide (vm.base.confidence ≥ autoApplyThreshold) }
            if corr.autoApplied then
              ([corr],
               ["Auto-normalized vendor name to \"" ++ vm.canonicalName ++ "\""],
               vm.canonicalName, vm.canonicalId)
            else
              ([corr],
               ["Suggested vendor normalization to \"" ++ vm.canonicalName ++
                 "\" (confidence: " ++ fmtFixed0 (vm.base.confidence * 100) ++ "%)"],
               invoice.vendor.name, defaultCanonicalId)
          else
            ([], ["Vendor \"" ++ invoice.vendor.name ++ "\" already normalized"],
             invoice.vendor.name, vm.canonicalId)
        let mappingPart := applyFieldMappings invoice vm autoApplyThreshold
        (renamePart.1 ++ mappingPart.1, renamePart.2.1 ++ mappingPart.2,
         renamePart.2.2.1, renamePart.2.2.2, vm.base.confidence)
    | none =>
        ([], ["No vendor memory found for \"" ++ invoice.vendor.name ++ "\""],
         invoice.vendor.name, defaultCanonicalId, (0.5 : ℚ))
  let typePart : List ProposedCorrection × List String × Option PaymentTerms :=
    match vendorType with
    | some VendorType.SUPPLIER_GMBH =>
        let r := applySupplierGmbHRules invoice vendorMemory autoApplyThreshold
        (r.1, r.2, none)
    | some VendorType.PARTS_AG =>
        let r := applyPartsAGRules invoice vendorMemory autoApplyThreshold
        (r.1, r.2, none)
    | some VendorType.FREIGHT_CO =>
        applyFreightCoRules invoice vendorMemory autoApplyThreshold
    | none => ([], [], none)
  let detectedPaymentTerms := typePart.2.2
  let normalizedLineItems : List NormalizedLineItem :=
    invoice.lineItems.map fun item =>
      { description := item.description
        quantity := match item.quantity with
          | some q => if q = 0 then 1 else q
          | none => 1
        unitPrice := match item.unitPrice with
          | some u => if u = 0 then item.amount else u
          | none => item.amount
        amount := item.amount
        category := match item.category with
          | some c => if c == "" then none else some c
          | none => none
        productCode := match item.productCode with
          | some pc => if pc == "" then none else some pc
          | none => none }
  let normalizedInvoice : NormalizedInvoice :=
    { invoiceId := invoice.invoiceId
      vendor := { normalizedName := memPart.2.2.1
                  canonicalId := memPart.2.2.2.1
                  originalName := invoice.vendor.name }
      invoiceDate := invoice.invoiceDate
      dueDate := match invoice.dueDate with
        | some d => if d == "" then none else some d
        | none => none
      serviceDate := invoice.serviceDate
      invoiceNumber := invoice.invoiceNumber
      totalAmount := invoice.totalAmount
      currency := invoice.currency
      lineItems := normalizedLineItems
      poNumber := match invoice.poNumber with
        | some p => if p == "" then none else some p
        | none => none
      paymentTerms := detectedPaymentTerms <|> invoice.paymentTerms
      processingTimestamp := now
      normalizationVersion := "2.0.0" }
  { normalizedInvoice := normalizedInvoice
    corrections := memPart.1 ++ typePart.1
    notes := memPart.2.1 ++ typePart.2.1
    vendorConfidence := memPart.2.2.2.2
    detectedPaymentTerms := detectedPaymentTerms }

/-- `shouldAddNameVariation` from vendorRules.ts. -/
def shouldAddNameVariation (vendorMemory : Option VendorMemory)
    (vendorName : String) : Bool :=
  match vendorMemory with
  | none => false
  | some vm =>
      let normalized := strTrim (strLower vendorName)
      let canonicalNormalized := strTrim (strLower vm.canonicalName)
      if normalized == canonicalNormalized then false
      else !(vm.nameVariations.any fun v => strTrim (strLower v) == normalized)

end VendorRules

/-! ## Correction rules module (src/core/rules/correctionRules.ts,
heuristic-fallback variant) -/

namespace CorrectionRules

/-- Result of `applyCorrectionMemories` (interface CorrectionApplyResult). -/
structure CorrectionApplyResult where
  corrections : List ProposedCorrection
  notes : List String
  averageConfidence : ℚ
  autoAppliedCount : ℕ
  pendingReviewCount : ℕ
  deriving DecidableEq, Repr

/-- Pattern-matching context (interface CorrectionContext). -/
structure CorrectionContext where
  vendorId : Option String
  vendorName : String
  invoiceNumber : String
  amount : ℚ
  currency : String
  lineItemCount : ℕ
  hasRawText : Bool
  rawTextLength : ℕ
  deriving DecidableEq, Repr

/-- The VAT-issue patterns of `detectVATIssue`. -/
def vatIssuePatterns : List (List Tok) :=
  [[Tok.lit "mwst", Tok.optC '.', Tok.ws0, Tok.lit "inkl"],
   [Tok.lit "inkl", Tok.optC '.', Tok.ws0, Tok.lit "mwst"],
   [Tok.lit "price", Tok.optC 's', Tok.ws1, Tok.lit "incl", Tok.optC '.', Tok.ws0,
     Tok.lit "vat"],
   [Tok.lit "brutto"],
   [Tok.lit "inklusive", Tok.ws1, Tok.lit "mehrwertsteuer"]]

/-- `detectVATIssue`. -/
def detectVATIssue (rawText : String) : Bool :=
  vatIssuePatterns.any fun p => testPat p rawText

/-- `isAmountSuspicious`: integral amounts above 100, or amounts below 1. -/
def isAmountSuspicious (amount : ℚ) : Bool :=
  if amount = (jsRound amount : ℚ) && amount > 100 then true
  else if amount < 1 then true
  else false

/-- `isPatternApplicable` (heuristic-fallback variant). -/
def isPatternApplicable (pattern : CorrectionPattern) (context : CorrectionContext)
    (invoice : InvoiceInput) : Bool :=
  match pattern.type with
  | PatternType.quantityMismatch =>
      context.lineItemCount > 0 &&
        invoice.lineItems.any fun item => item.quantity.isSome
  | PatternType.taxRecomputation =>
      context.hasRawText && detectVATIssue (invoice.rawText.getD "")
  | PatternType.fieldCorrection =>
      strIncludes pattern.signature (context.vendorId.getD "") ||
        strIncludes pattern.signature (strLower context.vendorName)
  | PatternType.amountAdjustment => isAmountSuspicious context.amount
  | PatternType.other => false

/-- The currency hints of `extractCurrencyHeuristic` over the raw text
(`/EUR|€/i` and friends are plain substring alternations). -/
def currencyHints : List (List String × String) :=
  [(["eur", "€"], "EUR"), (["usd", "$"], "USD"), (["gbp", "£"], "GBP"),
   (["chf"], "CHF")]

/-- `extractCurrencyHeuristic`: raw text, then metadata, then vendor-address
hints. -/
def extractCurrencyHeuristic (invoice : InvoiceInput) : Option (String × String) :=
  let fromRaw : Option (String × String) :=
    match invoice.rawText with
    | some t =>
        if t == "" then none
        else ((currencyHints.find? fun h =>
          h.1.any fun n => strIncludes (strLower t) n).map fun h => (h.2, "rawText"))
    | none => none
  match fromRaw with
  | some r => some r
  | none =>
      match VendorRules.metaTruthy invoice.metadata "currency" with
      | some c => some (c, "metadata")
      | none =>
          match invoice.vendor.address with
          | some addr =>
              if addr == "" then none
              else
                let a := strLower addr
                if strIncludes a "germany" || strIncludes a "deutschland" ||
                    strEndsWithStr a "de" then
                  some ("EUR", "vendor address (Germany)")
                else if strIncludes a "switzerland" || strIncludes a "schweiz" ||
                    strEndsWithStr a "ch" then
                  some ("CHF", "vendor address (Switzerland)")
                else none
          | none => none

/-- The SKU suggestion table of `suggestSkuFromDescription`. -/
def skuPatterns : List (List String × String × ℚ) :=
  [(["shipping", "freight", "seefracht", "fracht", "versand"], "FREIGHT", 0.75),
   (["consulting", "beratung"], "CONSULTING", 0.7),
   (["license", "lizenz"], "LICENSE", 0.7),
   (["maintenance", "wartung"], "MAINTENANCE", 0.7),
   (["training", "schulung"], "TRAINING", 0.7),
   (["tax", "steuer", "mwst"], "TAX", 0.6)]

/-- `suggestSkuFromDescription`. -/
def suggestSkuFromDescription (description : String) : Option (String × ℚ) :=
  ((skuPatterns.find? fun row =>
    row.1.any fun n => strIncludes (strLower description) n).map fun row => row.2)

/-- `isISODate`: anchored test of `^\d{4}-\d{2}-\d{2}`. -/
def isISODate (dateStr : String) : Bool :=
  (matchToks [Tok.digitC, Tok.digitC, Tok.digitC, Tok.digitC, Tok.lit "-",
    Tok.digitC, Tok.digitC, Tok.lit "-", Tok.digitC, Tok.digitC]
    dateStr.toList).isSome

/-- One anchored date shape `D{1,2} sep D{1,2} sep D{4}` (the source's third
pattern repeats the second regex verbatim, so it can never match first and is
not modelled separately). -/
def dmyParts (sep : Char) (dateStr : String) : Option (String × String × String) :=
  match splitOnChar sep dateStr.toList with
  | [d, m, y] =>
      if 1 ≤ d.length && d.length ≤ 2 && d.all isDigitChar &&
         1 ≤ m.length && m.length ≤ 2 && m.all isDigitChar &&
         y.length == 4 && y.all isDigitChar then
        some (String.mk d, String.mk m, String.mk y)
      else none
  | _ => none

/-- `normalizeDateFormat`: DD.MM.YYYY or DD/MM/YYYY to ISO. -/
def normalizeDateFormat (dateStr : String) : Option String :=
  match dmyParts '.' dateStr with
  | some (d, m, y) => some (y ++ "-" ++ padStart2 m ++ "-" ++ padStart2 d)
  | none =>
      match dmyParts '/' dateStr with
      | some (d, m, y) => some (y ++ "-" ++ padStart2 m ++ "-" ++ padStart2 d)
      | none => none

/-- Accumulator of `applyHeuristicCorrections`. -/
structure HeuristicResult where
  corrections : List ProposedCorrection
  notes : List String
  avgConfidence : ℚ
  autoApplied : ℕ
  pendingReview : ℕ
  deriving DecidableEq, Repr

/-- `applyHeuristicCorrections`: currency extraction, SKU suggestions and
date normalization, each with fixed confidence; the average defaults to 0.5
when no heuristic fires. -/
def applyHeuristicCorrections (invoice : InvoiceInput)
    (autoApplyThreshold : ℚ) : HeuristicResult :=
  let h1 : List ProposedCorrection × List String :=
    if invoice.currency == "" || invoice.currency == "UNKNOWN" then
      match extractCurrencyHeuristic invoice with
      | some (currency, source) =>
          let confidence : ℚ := 0.6
          let corr : ProposedCorrection :=
            { field := "currency"
              originalValue := if invoice.currency == "" then "UNKNOWN" else invoice.currency
              proposedValue := currency
              confidence := confidence
              reasoning := "Heuristic: Extracted currency \"" ++ currency ++
                "\" from " ++ source
              source := none
              autoApplied := decide (confidence ≥ autoApplyThreshold) }
          ([corr],
           ["Heuristic: Found currency \"" ++ currency ++ "\" in " ++ source])
      | none => ([], [])
    else ([], [])
  let h2 : List ProposedCorrection :=
    invoice.lineItems.enum.foldl
      (fun acc itemIdx =>
        let i := itemIdx.1
        let item := itemIdx.2
        match suggestSkuFromDescription item.description with
        | some (sku, confidence) =>
            if item.productCode.isNone then
              acc ++ [{ field := "lineItems[" ++ natDigits i ++ "].productCode"
                        originalValue := ""
                        proposedValue := sku
                        confidence := confidence
                        reasoning := "Heuristic: \"" ++ item.description ++
                          "\" matches pattern for " ++ sku
                        source := none
                        autoApplied := decide (confidence ≥ autoApplyThreshold) }]
            else acc
        | none => acc)
      []
  let h3 : List ProposedCorrection :=
    if invoice.invoiceDate ≠ "" && !isISODate invoice.invoiceDate then
      match normalizeDateFormat invoice.invoiceDate with
      | some normalized =>
          [{ field := "invoiceDate"
             originalValue := invoice.invoiceDate
             proposedValue := normalized
             confidence := 0.8
             reasoning := "Heuristic: Normalized date to ISO 8601 format"
             source := none
             autoApplied := decide ((0.8 : ℚ) ≥ autoApplyThreshold) }]
      | none => []
    else []
  let corrections := h1.1 ++ h2 ++ h3
  let totalConfidence := (corrections.map fun c => c.confidence).sum
  let avgConfidence :=
    if corrections.length > 0 then totalConfidence / corrections.length else 0.5
  { corrections := corrections
    notes := h1.2
    avgConfidence := avgConfidence
    autoApplied := (corrections.filter fun c => c.autoApplied).length
    pendingReview := (corrections.filter fun c => !c.autoApplied).length }

/-- `createProposedCorrection` from a correction memory. -/
def patternTypeStr : PatternType → String
  | PatternType.quantityMismatch => "quantityMismatch"
  | PatternType.taxRecomputation => "taxRecomputation"
  | PatternType.fieldCorrection => "fieldCorrection"
  | PatternType.amountAdjustment => "amountAdjustment"
  | PatternType.other => "other"

/-- `createProposedCorrection`: auto-applied only above threshold and
human-approved. -/
def createProposedCorrection (correction : CorrectionMemory)
    (autoApplyThreshold : ℚ) : ProposedCorrection :=
  { field := patternTypeStr correction.pattern.type
    originalValue := correction.pattern.condition
    proposedValue := correction.suggestedAction
    confidence := correction.base.confidence
    reasoning := "Memory: " ++ correction.pattern.signature ++ " (" ++
      natDigits correction.base.reinforcementCount ++ " reinforcements)"
    source := some correction.base.id
    autoApplied := decide (correction.base.confidence ≥ autoApplyThreshold) &&
      correction.humanApproved }

/-- `applyCorrectionMemories` (heuristic-fallback variant): filter the
memories by applicability; with none applicable, fall back to the heuristic
corrections and their average confidence; otherwise emit one proposal per
applicable memory and average their confidences. -/
def applyCorrectionMemories (invoice : InvoiceInput)
    (corrections : List CorrectionMemory) (autoApplyThreshold : ℚ) :
    CorrectionApplyResult :=
  let context : CorrectionContext :=
    { vendorId := invoice.vendor.id
      vendorName := invoice.vendor.name
      invoiceNumber := invoice.invoiceNumber
      amount := invoice.totalAmount
      currency := invoice.currency
      lineItemCount := invoice.lineItems.length
      hasRawText := match invoice.rawText with
        | some t => t ≠ ""
        | none => false
      rawTextLength := (invoice.rawText.getD "").length }
  let applicableCorrections := corrections.filter fun c =>
    isPatternApplicable c.pattern context invoice
  if applicableCorrections.isEmpty then
    let heuristic := applyHeuristicCorrections invoice autoApplyThreshold
    { corrections := heuristic.corrections
      notes := "No applicable correction patterns found from memory" :: heuristic.notes
      averageConfidence := heuristic.avgConfidence
      autoAppliedCount := heuristic.autoApplied
      pendingReviewCount := heuristic.pendingReview }
  else
    let proposed := applicableCorrections.map fun c =>
      createProposedCorrection c autoApplyThreshold
    let perNote := applicableCorrections.map fun c =>
      if (createProposedCorrection c autoApplyThreshold).autoApplied then
        "Auto-applied: " ++ c.suggestedAction
      else
        "Pending review: " ++ c.suggestedAction ++ " (" ++
          fmtFixed0 (c.base.confidence * 100) ++ "% confidence)"
    let totalConfidence := (applicableCorrections.map fun c => c.base.confidence).sum
    { corrections := proposed
      notes := ("Found " ++ natDigits applicableCorrections.length ++
        " applicable correction pattern(s) from memory") :: perNote
      averageConfidence :=
        if applicableCorrections.length > 0 then
          totalConfidence / applicableCorrections.length
        else 0
      autoAppliedCount := (proposed.filter fun p => p.autoApplied).length
      pendingReviewCount := (proposed.filter fun p => !p.autoApplied).length }

end CorrectionRules

/-! ## Audit module (src/core/audit.ts) -/

namespace Audit

/-- `createAuditEntry`. -/
def createAuditEntry (step : AuditStep) (details : String) (now : ℤ) :
    AuditTrailEntry :=
  { step := step, timestamp := now, details := details }

/-- `buildReasoningFromAudit`: summarize the last recall entry, the count of
apply entries mentioning corrections, the last decide entry, and the review
status. -/
def buildReasoningFromAudit (entries : List AuditTrailEntry)
    (requiresHumanReview : Bool) : String :=
  let recallEntries := entries.filter fun e => e.step == AuditStep.recall
  let applyEntries := entries.filter fun e => e.step == AuditStep.apply
  let decideEntries := entries.filter fun e => e.step == AuditStep.decide
  let parts1 : List String :=
    match recallEntries.getLast? with
    | some lastRecall => ["Recall: " ++ lastRecall.details]
    | none => []
  let parts2 : List String :=
    if applyEntries.isEmpty then []
    else
      let corrections := applyEntries.filter fun e =>
        strIncludes e.details "correction"
      if corrections.length > 0 then
        ["Applied " ++ natDigits corrections.length ++ " memory-based correction(s)"]
      else []
  let parts3 : List String :=
    match decideEntries.getLast? with
    | some lastDecide => ["Decision: " ++ lastDecide.details]
    | none => []
  let parts4 : List String :=
    if requiresHumanReview then ["Status: Requires human review"]
    else ["Status: Auto-processed successfully"]
  joinWith ". " (parts1 ++ parts2 ++ parts3 ++ parts4)

end Audit

/-! ## Pipeline orchestrator (src/core/pipeline.ts) -/

namespace Pipeline

/-- Pipeline options (interface PipelineOptions, merged over
DEFAULT_OPTIONS).  `humanApproved` models `humanOverrides?.approved`; the
`corrections` override is never read by the pipeline. -/
structure PipelineOptions where
  simulateHumanDecision : Bool
  humanApproved : Option Bool
  autoApplyThreshold : ℚ
  humanReviewThreshold : ℚ
  deriving DecidableEq, Repr

/-- DEFAULT_OPTIONS from pipeline.ts. -/
def DEFAULT_OPTIONS : PipelineOptions :=
  { simulateHumanDecision := false
    humanApproved := none
    autoApplyThreshold := 0.85
    humanReviewThreshold := 0.6 }

/-- Result of the recall phase (interface RecallResult). -/
structure RecallResult where
  vendorMemory : Option VendorMemory
  correctionMemories : List CorrectionMemory
  duplicateRecord : Option DuplicateRecord
  duplicateHash : String
  deriving DecidableEq, Repr

/-- Result of the apply phase (interface ApplyResult). -/
structure ApplyResult where
  normalizedInvoice : NormalizedInvoice
  corrections : List ProposedCorrection
  overallConfidence : ℚ
  deriving DecidableEq, Repr

/-- Result of the decide phase (interface DecideResult). -/
structure DecideResult where
  requiresHumanReview : Bool
  confidenceScore : ℚ
  reasoning : String
  finalCorrections : List ProposedCorrection
  deriving DecidableEq, Repr

/-- JavaScript `a || b` on numbers: `b` exactly when `a` is 0 (the only
falsy finite value). -/
def orJS (a b : ℚ) : ℚ := if a = 0 then b else a

/-- The hash the recall phase computes: JSON key `vendorId`, the raw vendor
id (or raw name), and the lower-cased trimmed invoice number. -/
def recallHash (invoice : InvoiceInput) : String :=
  let vendorIdKey := match invoice.vendor.id with
    | some i => if i == "" then invoice.vendor.name else i
    | none => invoice.vendor.name
  generateHash [("vendorId", vendorIdKey),
                ("invoiceNumber", strLower (strTrim invoice.invoiceNumber)),
                ("dateKey", strTakeN 7 invoice.invoiceDate)]

/-- `recallMemories` (phase 1): vendor memory by name, corrections scoped to
it, and the duplicate lookup under the recall hash. -/
def recallMemories (invoice : InvoiceInput) (s : Store) : RecallResult :=
  let vendorMemory := MemoryStore.findVendorByName s invoice.vendor.name
  let correctionMemories := match vendorMemory with
    | some vm => MemoryStore.findCorrections s PatternType.fieldCorrection
        (some vm.canonicalId)
    | none => []
  let duplicateHash := recallHash invoice
  { vendorMemory := vendorMemory
    correctionMemories := correctionMemories
    duplicateRecord := MemoryStore.findDuplicate s duplicateHash
    duplicateHash := duplicateHash }

/-- `applyMemories` (phase 2): run the two rule modules, aggregate their
corrections, and weight vendor and correction confidence 0.6/0.4 with the
JS `||` fallback to the vendor confidence.  Also returns the audit notes the
phase pushes (vendor notes then correction notes). -/
def applyMemories (invoice : InvoiceInput) (opts : PipelineOptions)
    (recallResult : RecallResult) (newVendorId : String) (now : ℤ) :
    ApplyResult × List String :=
  let vendorResult := VendorRules.applyVendorMemories invoice
    recallResult.vendorMemory opts.autoApplyThreshold newVendorId now
  let correctionResult := CorrectionRules.applyCorrectionMemories invoice
    recallResult.correctionMemories opts.autoApplyThreshold
  let vendorWeight : ℚ := 0.6
  let correctionWeight : ℚ := 0.4
  let overallConfidence :=
    vendorResult.vendorConfidence * vendorWeight +
      orJS correctionResult.averageConfidence vendorResult.vendorConfidence *
        correctionWeight
  let normalizedInvoice :=
    { vendorResult.normalizedInvoice with
        processingTimestamp := now, normalizationVersion := "2.0.0" }
  ({ normalizedInvoice := normalizedInvoice
     corrections := vendorResult.corrections ++ correctionResult.corrections
     overallConfidence := overallConfidence },
   vendorResult.notes ++ correctionResult.notes)

/-- `decideActions` (phase 3): duplicate-record penalties (×0.3 confirmed,
×0.7 potential), forced review on pending corrections or low confidence, the
simulated-human override, and the audit-derived reasoning string. -/
def decideActions (opts : PipelineOptions) (applyResult : ApplyResult)
    (recallResult : RecallResult) (auditTrail : List AuditTrailEntry) :
    DecideResult :=
  let step1 : Bool × ℚ :=
    match recallResult.duplicateRecord with
    | some r =>
        if r.confirmedDuplicate then (true, applyResult.overallConfidence * 0.3)
        else (true, applyResult.overallConfidence * 0.7)
    | none => (false, applyResult.overallConfidence)
  let pendingCorrections := applyResult.corrections.filter fun c => !c.autoApplied
  let rhr2 := step1.1 || pendingCorrections.length > 0
  let rhr3 := rhr2 || decide (step1.2 < opts.humanReviewThreshold)
  let afterHuman : Bool × ℚ :=
    if opts.simulateHumanDecision then
      match opts.humanApproved with
      | some true => (false, max step1.2 0.9)
      | some false => (true, step1.2)
      | none => (rhr3, step1.2)
    else (rhr3, step1.2)
  let requiresHumanReview := afterHuman.1
  let confidenceScore := afterHuman.2
  let reasoning := Audit.buildReasoningFromAudit auditTrail requiresHumanReview
  { requiresHumanReview := requiresHumanReview
    confidenceScore := confidenceScore
    reasoning := reasoning
    finalCorrections :=
      if requiresHumanReview then applyResult.corrections
      else applyResult.corrections.filter fun c => c.autoApplied }

/-- `learnFromOutcome` (phase 4): the memory-update list — reinforce or
create the vendor memory, optionally add a name variation, create a
first-seen duplicate entry, and reinforce auto-applied corrections. -/
def learnFromOutcome (invoice : InvoiceInput) (recallResult : RecallResult)
    (applyResult : ApplyResult) (decideResult : DecideResult) :
    List MemoryUpdate :=
  let vendorUpdates : List MemoryUpdate :=
    match recallResult.vendorMemory with
    | some vm =>
        [{ operation := "reinforce", memoryType := "vendor",
           recordId := some vm.base.id, data := UpdateData.emptyData,
           reason := "Vendor seen in invoice processing" }] ++
        (if VendorRules.shouldAddNameVariation (some vm) invoice.vendor.name then
          [{ operation := "update", memoryType := "vendor",
             recordId := some vm.base.id,
             data := UpdateData.vendorVariation
               (vm.nameVariations ++ [invoice.vendor.name]),
             reason := "New name variation discovered" }]
        else [])
    | none =>
        [{ operation := "create", memoryType := "vendor", recordId := none,
           data := UpdateData.vendorCreate
             applyResult.normalizedInvoice.vendor.canonicalId
             applyResult.normalizedInvoice.vendor.normalizedName
             [invoice.vendor.name]
             (if decideResult.requiresHumanReview then 0.3 else 0.5),
           reason := "New vendor encountered" }]
  let duplicateUpdates : List MemoryUpdate :=
    match recallResult.duplicateRecord with
    | some _ => []
    | none =>
        [{ operation := "create", memoryType := "duplicate", recordId := none,
           data := UpdateData.dupCreate recallResult.duplicateHash
             invoice.invoiceId applyResult.normalizedInvoice.vendor.canonicalId
             invoice.invoiceNumber invoice.totalAmount,
           reason := "Record invoice hash for duplicate detection" }]
  let correctionUpdates : List MemoryUpdate :=
    (applyResult.corrections.filter fun c => c.autoApplied).foldl
      (fun acc c =>
        match c.source with
        | some src =>
            acc ++ [{ operation := "reinforce", memoryType := "correction",
                      recordId := some src, data := UpdateData.emptyData,
                      reason := "Correction auto-applied: " ++ c.field }]
        | none => acc)
      []
  vendorUpdates ++ duplicateUpdates ++ correctionUpdates

/-- The forced-review zero-confidence output of the missing-vendor guard. -/
def missingVendorOutput (invoice : InvoiceInput) (now : ℤ) :
    InvoiceDecisionOutput :=
  { normalizedInvoice :=
      { invoiceId := invoice.invoiceId
        vendor := { normalizedName := "UNKNOWN", originalName := "UNKNOWN",
                    canonicalId := "unknown" }
        invoiceDate := invoice.invoiceDate
        dueDate := match invoice.dueDate with
          | some d => if d == "" then none else some d
          | none => none
        serviceDate := none
        invoiceNumber := invoice.invoiceNumber
        totalAmount := invoice.totalAmount
        currency := invoice.currency
        lineItems := []
        poNumber := match invoice.poNumber with
          | some p => if p == "" then none else some p
          | none => none
        paymentTerms := none
        processingTimestamp := now
        normalizationVersion := "1.0.0" }
    confidenceScore := 0.0
    requiresHumanReview := true
    proposedCorrections := []
    reasoning := "Missing required vendor information"
    auditTrail := []
    memoryUpdates := [] }

/-- `processInvoice` from pipeline.ts: the Recall → duplicate gate → Apply →
Decide → Learn sequence.  Returns the decision output and the post-run
store.  `mkId` models the `generateId` calls a run may perform (0: vendor id
fallback, 1: gate duplicate record, 2: learn-phase duplicate record). -/
def processInvoice (invoice : InvoiceInput) (memoryStore : Store)
    (opts : PipelineOptions) (now : ℤ) (mkId : ℕ → String) :
    InvoiceDecisionOutput × Store :=
  if invoice.vendor.name == "" then
    (missingVendorOutput invoice now, memoryStore)
  else
    let recallResult := recallMemories invoice memoryStore
    let e1 := Audit.createAuditEntry AuditStep.recall
      ("Starting memory recall for invoice " ++ invoice.invoiceId) now
    let e2 := Audit.createAuditEntry AuditStep.recall
      ("Found: " ++
        (match recallResult.vendorMemory with
         | some _ => "vendor memory" | none => "no vendor memory") ++ ", " ++
        natDigits recallResult.correctionMemories.length ++ " corrections, " ++
        (match recallResult.duplicateRecord with
         | some _ => "potential duplicate" | none => "no duplicate")) now
    let duplicateCheck := Duplicates.checkForDuplicate invoice memoryStore
    let skipLearning := if duplicateCheck.isDuplicate then
        duplicateCheck.skipLearning else false
    let dupEntries : List AuditTrailEntry :=
      if duplicateCheck.isDuplicate then
        [Audit.createAuditEntry AuditStep.decide
          ("Duplicate detected: " ++ duplicateCheck.reason.getD "undefined" ++
            ". Similarity: " ++ fmtFixed0 (duplicateCheck.similarityScore * 100) ++
            "%") now]
      else []
    let store1 := if duplicateCheck.isDuplicate then
        Duplicates.recordDuplicate memoryStore invoice (mkId 1) now
      else memoryStore
    let e3 := Audit.createAuditEntry AuditStep.apply
      "Applying memories to normalize invoice" now
    let applyPair := applyMemories invoice opts recallResult (mkId 0) now
    let applyResult := applyPair.1
    let applyNoteEntries := applyPair.2.map fun n =>
      Audit.createAuditEntry AuditStep.apply n now
    let e4 := Audit.createAuditEntry AuditStep.apply
      ("Generated " ++ natDigits applyResult.corrections.length ++
        " correction(s), confidence: " ++
        fmtFixed0 (applyResult.overallConfidence * 100) ++ "%") now
    let e5 := Audit.createAuditEntry AuditStep.decide
      "Evaluating confidence and determining action" now
    let trailForDecide :=
      [e1, e2] ++ dupEntries ++ [e3] ++ applyNoteEntries ++ [e4, e5]
    let decide0 := decideActions opts applyResult recallResult trailForDecide
    let decideResult :=
      if duplicateCheck.isDuplicate then
        { decide0 with
            confidenceScore :=
              decide0.confidenceScore * (1 - DUPLICATE_CONFIDENCE_PENALTY),
            requiresHumanReview := true,
            reasoning := decide0.reasoning ++ ". DUPLICATE: " ++
              duplicateCheck.reason.getD "undefined" }
      else decide0
    let e6 := Audit.createAuditEntry AuditStep.decide
      (if decideResult.requiresHumanReview then
        "Escalating to human review: " ++ decideResult.reasoning
      else
        "Auto-approved with confidence " ++
          fmtFixed0 (decideResult.confidenceScore * 100) ++ "%") now
    let learnPhase : List MemoryUpdate × List AuditTrailEntry × Store :=
      if skipLearning then
        ([], [Audit.createAuditEntry AuditStep.learn
          "Skipping learning - duplicate invoice detected" now], store1)
      else
        let memoryUpdates := learnFromOutcome invoice recallResult applyResult
          decideResult
        let store2 := Duplicates.recordInvoiceForDuplicateDetection store1
          invoice (mkId 2) now
        (memoryUpdates,
         [Audit.createAuditEntry AuditStep.learn "Recording memory updates" now,
          Audit.createAuditEntry AuditStep.learn
            ("Generated " ++ natDigits memoryUpdates.length ++
              " memory update(s)") now],
         store2)
    let auditTrail := trailForDecide ++ [e6] ++ learnPhase.2.1
    ({ normalizedInvoice := applyResult.normalizedInvoice
       proposedCorrections := decideResult.finalCorrections
       requiresHumanReview := decideResult.requiresHumanReview
       reasoning := decideResult.reasoning
       confidenceScore := decideResult.confidenceScore
       memoryUpdates := learnPhase.1
       auditTrail := auditTrail },
     learnPhase.2.2)

end Pipeline

/-! ## Shared lemmas about the confidence engine -/

/-- Reinforcement never moves down and never leaves the cap, for inputs
within `[0, MAX]`. -/
lemma reinforce_bounds (c : ℚ) (_h0 : 0 ≤ c) (h1 : c ≤ MAXC) :
    c ≤ reinforce c ∧ reinforce c ≤ MAXC := by
  unfold reinforce
  constructor
  · refine le_min ?_ h1
    have : (0.01 : ℚ) ≤ max (REINFORCE_DELTA * ((MAXC - c) / MAXC)) 0.01 :=
      le_max_right _ _
    linarith
  · exact min_le_right _ _

/-- Reinforcement stays nonnegative for nonnegative inputs. -/
lemma reinforce_nonneg (c : ℚ) (h0 : 0 ≤ c) : 0 ≤ reinforce c := by
  unfold reinforce
  have h1 : (0.01 : ℚ) ≤ max (REINFORCE_DELTA * ((MAXC - c) / MAXC)) 0.01 :=
    le_max_right _ _
  have h2 : (0 : ℚ) ≤ c + max (REINFORCE_DELTA * ((MAXC - c) / MAXC)) 0.01 := by
    linarith
  have h3 : (0 : ℚ) ≤ MAXC := by norm_num [MAXC]
  exact le_min h2 h3

/-- Penalization never moves up and never leaves the floor. -/
lemma penalize_bounds (c : ℚ) (h0 : 0 ≤ c) :
    MINC ≤ penalize c ∧ penalize c ≤ c := by
  unfold penalize
  have hm : MINC ≤ c := by
    have : MINC = 0 := by norm_num [MINC]
    linarith
  refine ⟨le_max_right _ _, max_le ?_ hm⟩
  norm_num [PENALIZE_DELTA]

/-- Decay keeps a confidence inside `[0, MAX]`. -/
lemma applyDecay_bounds (c : ℚ) (t now : ℤ) (h0 : 0 ≤ c) (h1 : c ≤ MAXC) :
    0 ≤ applyDecay c t now ∧ applyDecay c t now ≤ MAXC := by
  simp only [applyDecay]
  split
  · exact ⟨h0, h1⟩
  · constructor
    · exact le_max_of_le_right (by norm_num [MINC])
    · have hf : (1 - DECAY_RATE_PER_DAY : ℚ) ^ (now - t - DECAY_GRACE_PERIOD_DAYS).toNat ≤ 1 := by
        apply pow_le_one₀ <;> norm_num [DECAY_RATE_PER_DAY]
      have hfz : (0 : ℚ) ≤ (1 - DECAY_RATE_PER_DAY) ^ (now - t - DECAY_GRACE_PERIOD_DAYS).toNat := by
        apply pow_nonneg; norm_num [DECAY_RATE_PER_DAY]
      refine max_le ?_ (by norm_num [MINC, MAXC])
      calc c * (1 - DECAY_RATE_PER_DAY) ^ (now - t - DECAY_GRACE_PERIOD_DAYS).toNat
          ≤ c * 1 := by exact mul_le_mul_of_nonneg_left hf h0
        _ = c := mul_one c
        _ ≤ MAXC := h1

/-! ## C3 -/

/-- C3 (amended): the functions are exactly
`reinforce c = min (c + max (REINFORCE_DELTA * ((MAXC - c) / MAXC)) 0.01) MAXC`
(the delta shrinks with the headroom `(MAXC - c) / MAXC` and is floored at
`0.01`) and `penalize c = max (c - PENALIZE_DELTA) MINC`; hence for every
confidence value `c` in `[0, MAX]`, `reinforce c` lies in `[c, MAX]`
(non-strictly: `reinforce MAXC = MAXC`), and for every `c` in `[0, 1]`,
`penalize c` lies in `[MIN, c]`.  (The original claim quantified the
reinforcement part over all of `[0, 1]`; it fails at `c = 1`, see the
counterexample.) -/
theorem c3_reinforce_penalize_bounded (c : ℚ) :
    reinforce c = min (c + max (REINFORCE_DELTA * ((MAXC - c) / MAXC)) 0.01) MAXC ∧
    penalize c = max (c - PENALIZE_DELTA) MINC ∧
    (0 ≤ c → c ≤ MAXC → c ≤ reinforce c ∧ reinforce c ≤ MAXC) ∧
    (0 ≤ c → c ≤ 1 → MINC ≤ penalize c ∧ penalize c ≤ c) := by
  refine ⟨rfl, rfl, ?_, ?_⟩
  · intro h0 h1
    exact reinforce_bounds c h0 h1
  · intro h0 _
    exact penalize_bounds c h0

/-- C3 witness: the bounds at the concrete confidence `1/2`. -/
theorem c3_witness :
    ((1 : ℚ)/2 ≤ reinforce (1/2) ∧ reinforce (1/2) ≤ MAXC) ∧
    (MINC ≤ penalize (1/2) ∧ penalize (1/2) ≤ (1 : ℚ)/2) :=
  ⟨(c3_reinforce_penalize_bounded (1/2)).2.2.1 (by norm_num) (by norm_num [MAXC]),
   (c3_reinforce_penalize_bounded (1/2)).2.2.2 (by norm_num) (by norm_num)⟩

/-- C3 counterexample: `c = 1` lies in `[0, 1]`, but `reinforce 1 = 0.95`
falls below `c`, so `reinforce c ∈ [c, MAX]` fails as stated. -/
theorem c3_counterexample :
    (0 : ℚ) ≤ 1 ∧ (1 : ℚ) ≤ 1 ∧ reinforce 1 = MAXC ∧ ¬ ((1 : ℚ) ≤ reinforce 1) := by
  have h : reinforce 1 = MAXC := by
    simp only [reinforce, REINFORCE_DELTA, MAXC]
    rw [max_def, min_def]
    norm_num
  refine ⟨by norm_num, le_refl 1, h, ?_⟩
  rw [h]
  norm_num [MAXC]

/-! ## C2 -/

/-- The vendor key as the spec's words describe it: the lower-cased
alphanumeric-only vendor id when an id is present, else the vendor name so
normalized.  (Modelled from the spec for comparison with the source's
`generateDuplicateHash`, which ignores the id.) -/
def specVendorKey (invoice : InvoiceInput) : String :=
  keepAlnum (strLower (invoice.vendor.id.getD invoice.vendor.name))

/-- Two invoices sharing the vendor id (and number and month) but with
different vendor names. -/
def c2invoiceA : InvoiceInput :=
  { invoiceId := "c2a"
    vendor := { name := "Acme Corp", id := some "V-001", taxId := none, address := none }
    invoiceDate := "2024-01-05", dueDate := none, invoiceNumber := "42"
    totalAmount := 100, currency := "EUR", lineItems := [], poNumber := none
    metadata := [], rawText := none, serviceDate := none, paymentTerms := none
    extractionConfidence := none }

/-- The same invoice with only the vendor name changed. -/
def c2invoiceB : InvoiceInput :=
  { c2invoiceA with
      invoiceId := "c2b"
      vendor := { name := "Beta GmbH", id := some "V-001", taxId := none, address := none } }

/-- C2 counterexample: both invoices carry the same vendor id, invoice
number and year-month — the spec's tuple coincides — yet the source's
fingerprints differ, because `generateDuplicateHash` keys the vendor by the
normalized *name* and never consults the id. -/
theorem c2_counterexample :
    specVendorKey c2invoiceA = specVendorKey c2invoiceB ∧
    Duplicates.normalizeInvoiceNumber c2invoiceA.invoiceNumber =
      Duplicates.normalizeInvoiceNumber c2invoiceB.invoiceNumber ∧
    strTakeN 7 c2invoiceA.invoiceDate = strTakeN 7 c2invoiceB.invoiceDate ∧
    Duplicates.generateDuplicateHash c2invoiceA ≠
      Duplicates.generateDuplicateHash c2invoiceB := by
  refine ⟨by decide, by decide, by decide, by decide⟩

/-- C2 (amended): the duplicate fingerprint is a deterministic function of
exactly the tuple of normalized vendor *name* (the id is not consulted),
normalized invoice number, and year-month of the invoice date; hence two
invoices differing only in fields outside that tuple (e.g. day-of-month)
share a fingerprint. -/
theorem c2_fingerprint_function_of_tuple (i1 i2 : InvoiceInput)
    (hname : Duplicates.normalizeVendorName i1.vendor.name =
      Duplicates.normalizeVendorName i2.vendor.name)
    (hnum : Duplicates.normalizeInvoiceNumber i1.invoiceNumber =
      Duplicates.normalizeInvoiceNumber i2.invoiceNumber)
    (hmonth : strTakeN 7 i1.invoiceDate = strTakeN 7 i2.invoiceDate) :
    Duplicates.generateDuplicateHash i1 = Duplicates.generateDuplicateHash i2 := by
  unfold Duplicates.generateDuplicateHash
  rw [hname, hnum, hmonth]

/-- C2 witness: two invoices of the same vendor and number, dated on
different days of the same month, share a fingerprint. -/
theorem c2_witness :
    Duplicates.generateDuplicateHash c2invoiceA =
      Duplicates.generateDuplicateHash
        { c2invoiceA with invoiceId := "c2c", invoiceDate := "2024-01-28" } :=
  c2_fingerprint_function_of_tuple _ _ (by decide) (by decide) (by decide)

/-! ## C9 -/

/-- C9: a reinforce or penalize on an id that identifies no record in any of
the four collections throws nothing and leaves the store unchanged. -/
theorem c9_unknown_id_mutations_are_noops (s : Store) (memoryId : String)
    (now : ℤ) (h : MemoryStore.memoryIdExists s memoryId = false) :
    MemoryStore.reinforceMemory s memoryId now = s ∧
    MemoryStore.penalizeMemory s memoryId now = s := by
  unfold MemoryStore.memoryIdExists at h
  simp only [Bool.or_eq_false_iff] at h
  obtain ⟨⟨⟨hv, hc⟩, hr⟩, hd⟩ := h
  refine ⟨?_, ?_⟩
  · unfold MemoryStore.reinforceMemory
    simp [hv, hc, hr, hd]
  · unfold MemoryStore.penalizeMemory
    simp [hv, hc, hr, hd]

/-- C9 witness: on the empty store, both mutations at the unknown id
`"ghost"` return the store unchanged. -/
theorem c9_witness :
    MemoryStore.reinforceMemory createEmptyStore "ghost" 0 = createEmptyStore ∧
    MemoryStore.penalizeMemory createEmptyStore "ghost" 0 = createEmptyStore :=
  c9_unknown_id_mutations_are_noops createEmptyStore "ghost" 0 (by decide)

/-! ## C4: confidence clamped to `[MIN, MAX]` by every mutation -/

/-- Predicate preservation through `updateFirst`. -/
lemma forall_mem_updateFirst {α} {P : α → Prop} (p : α → Bool) (f : α → α) :
    ∀ l : List α, (∀ x ∈ l, P x) → (∀ x ∈ l, P x → P (f x)) →
      ∀ x ∈ updateFirst p f l, P x := by
  intro l
  induction l with
  | nil => intro _ _ x hx; simp [updateFirst] at hx
  | cons a t ih =>
      intro hall hf x hx
      simp only [updateFirst] at hx
      split at hx
      · rcases List.mem_cons.mp hx with h | h
        · rw [h]; exact hf a (by simp) (hall a (by simp))
        · exact hall x (List.mem_cons_of_mem _ h)
      · rcases List.mem_cons.mp hx with h | h
        · rw [h]; exact hall a (by simp)
        · exact ih (fun y hy => hall y (List.mem_cons_of_mem _ hy))
            (fun y hy => hf y (List.mem_cons_of_mem _ hy)) x h

/-- A record confidence inside the clamp interval. -/
def confInRangeBase (b : MemBase) : Prop :=
  MINC ≤ b.confidence ∧ b.confidence ≤ MAXC

instance (b : MemBase) : Decidable (confInRangeBase b) := by
  unfold confInRangeBase; infer_instance

/-- All four collections of the store hold clamped confidences. -/
def ConfInRange (s : Store) : Prop :=
  (∀ kv ∈ s.vendorMemories, confInRangeBase kv.2.base) ∧
  (∀ c ∈ s.correctionMemories, confInRangeBase c.base) ∧
  (∀ r ∈ s.resolutionMemories, confInRangeBase r.base) ∧
  (∀ d ∈ s.duplicates, confInRangeBase d.base)

instance (s : Store) : Decidable (ConfInRange s) := by
  unfold ConfInRange; infer_instance

lemma minc_eq : MINC = 0 := by norm_num [MINC]

lemma confInRangeBase_def (b : MemBase) (h : confInRangeBase b) :
    0 ≤ b.confidence ∧ b.confidence ≤ MAXC := by
  rcases h with ⟨h1, h2⟩
  rw [minc_eq] at h1
  exact ⟨h1, h2⟩

lemma confInRangeBase_mk (b : MemBase) (h1 : 0 ≤ b.confidence)
    (h2 : b.confidence ≤ MAXC) : confInRangeBase b := by
  exact ⟨by rw [minc_eq]; exact h1, h2⟩

lemma confInRangeBase_reinforceBase (b : MemBase) (now : ℤ)
    (h : confInRangeBase b) : confInRangeBase (MemoryStore.reinforceBase b now) := by
  obtain ⟨h1, h2⟩ := confInRangeBase_def b h
  refine confInRangeBase_mk _ ?_ ?_ <;> simp only [MemoryStore.reinforceBase]
  · exact reinforce_nonneg _ h1
  · exact (reinforce_bounds _ h1 h2).2

lemma confInRangeBase_penalizeBase (b : MemBase) (now : ℤ)
    (h : confInRangeBase b) : confInRangeBase (MemoryStore.penalizeBase b now) := by
  obtain ⟨h1, h2⟩ := confInRangeBase_def b h
  obtain ⟨p1, p2⟩ := penalize_bounds b.confidence h1
  rw [minc_eq] at p1
  refine confInRangeBase_mk _ ?_ ?_ <;> simp only [MemoryStore.penalizeBase]
  · exact p1
  · exact le_trans p2 h2

lemma confInRangeBase_decayBase (b : MemBase) (now : ℤ)
    (h : confInRangeBase b) : confInRangeBase (MemoryStore.decayBase b now) := by
  obtain ⟨h1, h2⟩ := confInRangeBase_def b h
  obtain ⟨d1, d2⟩ := applyDecay_bounds b.confidence b.updatedAt now h1 h2
  simp only [MemoryStore.decayBase]
  split
  · exact h
  · split
    · exact h
    · exact confInRangeBase_mk _ d1 d2

lemma initial_in_range : MINC ≤ initialConfidence ∧ initialConfidence ≤ MAXC := by
  norm_num [initialConfidence, INITIAL, MINC, MAXC]

/-- C4 helper: `reinforceMemory` preserves the clamp invariant. -/
lemma confInRange_reinforceMemory (s : Store) (mid : String) (now : ℤ)
    (hs : ConfInRange s) : ConfInRange (MemoryStore.reinforceMemory s mid now) := by
  obtain ⟨hv, hc, hr, hd⟩ := hs
  unfold MemoryStore.reinforceMemory
  split
  · exact ⟨forall_mem_updateFirst _ _ _ hv
      (fun x _ hx => confInRangeBase_reinforceBase _ now hx), hc, hr, hd⟩
  · split
    · exact ⟨hv, forall_mem_updateFirst _ _ _ hc
        (fun x _ hx => confInRangeBase_reinforceBase _ now hx), hr, hd⟩
    · split
      · exact ⟨hv, hc, forall_mem_updateFirst _ _ _ hr
          (fun x _ hx => confInRangeBase_reinforceBase _ now hx), hd⟩
      · split
        · exact ⟨hv, hc, hr, forall_mem_updateFirst _ _ _ hd
            (fun x _ hx => confInRangeBase_reinforceBase _ now hx)⟩
        · exact ⟨hv, hc, hr, hd⟩

/-- C4 helper: `penalizeMemory` preserves the clamp invariant. -/
lemma confInRange_penalizeMemory (s : Store) (mid : String) (now : ℤ)
    (hs : ConfInRange s) : ConfInRange (MemoryStore.penalizeMemory s mid now) := by
  obtain ⟨hv, hc, hr, hd⟩ := hs
  unfold MemoryStore.penalizeMemory
  split
  · exact ⟨forall_mem_updateFirst _ _ _ hv
      (fun x _ hx => confInRangeBase_penalizeBase _ now hx), hc, hr, hd⟩
  · split
    · exact ⟨hv, forall_mem_updateFirst _ _ _ hc
        (fun x _ hx => confInRangeBase_penalizeBase _ now hx), hr, hd⟩
    · split
      · exact ⟨hv, hc, forall_mem_updateFirst _ _ _ hr
          (fun x _ hx => confInRangeBase_penalizeBase _ now hx), hd⟩
      · split
        · exact ⟨hv, hc, hr, forall_mem_updateFirst _ _ _ hd
            (fun x _ hx => confInRangeBase_penalizeBase _ now hx)⟩
        · exact ⟨hv, hc, hr, hd⟩

/-- The base record written by the existing-vendor branch of
`updateVendorMemory` is the reinforcement of the old base. -/
lemma applyVendorUpdates_base (e : VendorMemory) (u : MemoryStore.VendorUpdates)
    (now : ℤ) :
    (MemoryStore.applyVendorUpdates e u now).base = MemoryStore.reinforceBase e.base now := by
  rcases u with ⟨cn, nv, fm, bh, tx⟩
  simp only [MemoryStore.applyVendorUpdates]
  cases nv <;> cases fm <;> cases bh <;> cases cn <;> cases tx <;> dsimp only <;>
    first
      | rfl
      | (split <;> rfl)

/-- C4 helper: `updateVendorMemory` preserves the clamp invariant. -/
lemma confInRange_updateVendorMemory (s : Store) (vid : String)
    (u : MemoryStore.VendorUpdates) (nid : String) (now : ℤ)
    (hs : ConfInRange s) :
    ConfInRange (MemoryStore.updateVendorMemory s vid u nid now).2 := by
  obtain ⟨hv, hc, hr, hd⟩ := hs
  unfold MemoryStore.updateVendorMemory
  cases hfind : MemoryStore.getVendorMemory s vid with
  | some existing =>
      refine ⟨?_, hc, hr, hd⟩
      refine forall_mem_updateFirst _ _ _ hv (fun x hx hxr => ?_)
      have : (MemoryStore.applyVendorUpdates existing u now).base =
          MemoryStore.reinforceBase existing.base now := applyVendorUpdates_base _ _ _
      simp only [this]
      have hex : confInRangeBase existing.base := by
        unfold MemoryStore.getVendorMemory at hfind
        rcases Option.map_eq_some'.mp hfind with ⟨kv, hkv, hkv2⟩
        have := hv kv (List.mem_of_find?_eq_some hkv)
        rwa [hkv2] at this
      exact confInRangeBase_reinforceBase _ now hex
  | none =>
      refine ⟨?_, hc, hr, hd⟩
      intro kv hkv
      rcases List.mem_append.mp hkv with h | h
      · exact hv kv h
      · simp only [List.mem_singleton] at h
        subst h
        exact confInRangeBase_mk _ (by norm_num [initialConfidence, INITIAL])
          (by norm_num [initialConfidence, INITIAL, MAXC])

/-- C4 helper: `recordCorrection` preserves the clamp invariant. -/
lemma confInRange_recordCorrection (s : Store) (prm : MemoryStore.CorrectionParams)
    (nid : String) (now : ℤ) (hs : ConfInRange s) :
    ConfInRange (MemoryStore.recordCorrection s prm nid now).2 := by
  obtain ⟨hv, hc, hr, hd⟩ := hs
  unfold MemoryStore.recordCorrection
  cases hfind : MemoryStore.findSimilarCorrection s.correctionMemories prm.pattern with
  | some existing =>
      refine ⟨hv, ?_, hr, hd⟩
      refine forall_mem_updateFirst _ _ _ hc (fun x _ hx => ?_)
      obtain ⟨h1, h2⟩ := confInRangeBase_def _ hx
      exact confInRangeBase_mk _ (reinforce_nonneg _ h1) (reinforce_bounds _ h1 h2).2
  | none =>
      refine ⟨hv, ?_, hr, hd⟩
      intro c hcm
      rcases List.mem_append.mp hcm with h | h
      · exact hc c h
      · simp only [List.mem_singleton] at h
        subst h
        by_cases hap : prm.humanApproved <;>
          refine confInRangeBase_mk _ ?_ ?_ <;>
            simp [hap] <;> norm_num [initialConfidence, INITIAL, MAXC]

/-- C4 helper: `recordResolution` preserves the clamp invariant. -/
lemma confInRange_recordResolution (s : Store) (prm : MemoryStore.ResolutionParams)
    (nid : String) (now : ℤ) (hs : ConfInRange s) :
    ConfInRange (MemoryStore.recordResolution s prm nid now).2 := by
  obtain ⟨hv, hc, hr, hd⟩ := hs
  simp only [MemoryStore.recordResolution]
  split
  · exact ⟨hv, hc, forall_mem_updateFirst _ _ _ hr
      (fun x _ hx => confInRangeBase_reinforceBase _ now hx), hd⟩
  · have happ : ConfInRange { s with resolutionMemories := s.resolutionMemories ++
        [{ base := ⟨nid, now, now, 0.6, 1, 0, true⟩,
           decisions := [prm.decision],
           relatedMemoryId := prm.relatedMemoryId,
           contextHash := prm.contextHash.getD (generateHash
             [("type", prm.decision.decisionType),
              ("action", prm.decision.action)]) }] } := by
      refine ⟨hv, hc, ?_, hd⟩
      intro r hrm
      rcases List.mem_append.mp hrm with h | h
      · exact hr r h
      · simp only [List.mem_singleton] at h
        subst h
        exact confInRangeBase_mk _ (by norm_num) (by norm_num [MAXC])
    cases hrel : prm.relatedMemoryId with
    | some rid =>
        rw [hrel] at happ
        dsimp only
        split
        · exact confInRange_penalizeMemory _ rid now happ
        · exact happ
    | none =>
        rw [hrel] at happ
        exact happ

/-- C4 helper: `recordDuplicate` preserves the clamp invariant. -/
lemma confInRange_recordDuplicate (s : Store) (prm : MemoryStore.DuplicateParams)
    (nid : String) (now : ℤ) (hs : ConfInRange s) :
    ConfInRange (MemoryStore.recordDuplicate s prm nid now).2 := by
  obtain ⟨hv, hc, hr, hd⟩ := hs
  simp only [MemoryStore.recordDuplicate]
  split
  · refine ⟨hv, hc, hr, ?_⟩
    refine forall_mem_updateFirst _ _ _ hd (fun x _ hx => ?_)
    obtain ⟨h1, h2⟩ := confInRangeBase_def _ hx
    exact confInRangeBase_mk _ (reinforce_nonneg _ h1) (reinforce_bounds _ h1 h2).2
  · refine ⟨hv, hc, hr, ?_⟩
    intro d hdm
    rcases List.mem_append.mp hdm with h | h
    · exact hd d h
    · simp only [List.mem_singleton] at h
      subst h
      exact confInRangeBase_mk _ (by norm_num [initialConfidence, INITIAL])
        (by norm_num [initialConfidence, INITIAL, MAXC])

/-- C4 helper: `applyDecayToAll` preserves the clamp invariant. -/
lemma confInRange_applyDecayToAll (s : Store) (now : ℤ) (hs : ConfInRange s) :
    ConfInRange (MemoryStore.applyDecayToAll s now) := by
  obtain ⟨hv, hc, hr, hd⟩ := hs
  unfold MemoryStore.applyDecayToAll
  refine ⟨?_, ?_, ?_, ?_⟩ <;> intro x hx <;>
    obtain ⟨y, hy, hyx⟩ := List.mem_map.mp hx <;> subst hyx
  · exact confInRangeBase_decayBase _ now (hv y hy)
  · exact confInRangeBase_decayBase _ now (hc y hy)
  · exact confInRangeBase_decayBase _ now (hr y hy)
  · exact confInRangeBase_decayBase _ now (hd y hy)

/-- C4: starting from a store whose records all carry confidence in
`[MIN, MAX] = [0, 0.95]`, every memory-store mutation operation —
`updateVendorMemory`, `recordCorrection`, `recordResolution`,
`recordDuplicate`, `reinforceMemory`, `penalizeMemory`, `applyDecayToAll` —
returns a store whose records all still carry confidence in `[0, 0.95]`. -/
theorem c4_mutations_preserve_confidence_clamp (s : Store) (hs : ConfInRange s) :
    (∀ vid u nid now, ConfInRange (MemoryStore.updateVendorMemory s vid u nid now).2) ∧
    (∀ prm nid now, ConfInRange (MemoryStore.recordCorrection s prm nid now).2) ∧
    (∀ prm nid now, ConfInRange (MemoryStore.recordResolution s prm nid now).2) ∧
    (∀ prm nid now, ConfInRange (MemoryStore.recordDuplicate s prm nid now).2) ∧
    (∀ mid now, ConfInRange (MemoryStore.reinforceMemory s mid now)) ∧
    (∀ mid now, ConfInRange (MemoryStore.penalizeMemory s mid now)) ∧
    (∀ now, ConfInRange (MemoryStore.applyDecayToAll s now)) :=
  ⟨fun vid u nid now => confInRange_updateVendorMemory s vid u nid now hs,
   fun prm nid now => confInRange_recordCorrection s prm nid now hs,
   fun prm nid now => confInRange_recordResolution s prm nid now hs,
   fun prm nid now => confInRange_recordDuplicate s prm nid now hs,
   fun mid now => confInRange_reinforceMemory s mid now hs,
   fun mid now => confInRange_penalizeMemory s mid now hs,
   fun now => confInRange_applyDecayToAll s now hs⟩

/-- A one-vendor store used as a concrete instance. -/
def exampleStore : Store :=
  { vendorMemories := [("acme",
      { base := ⟨"vendor_1", 0, 0, 0.5, 1, 0, true⟩
        canonicalName := "acme", canonicalId := "acme", nameVariations := []
        fieldMappings := [], behaviors := VendorBehavior.empty, taxId := none })]
    correctionMemories := [], resolutionMemories := [], duplicates := []
    stats := ⟨0, 0, 0, 0⟩ }

/-- C4 witness: the invariant holds of the example store and is preserved by
a concrete `penalizeMemory` call on it. -/
theorem c4_witness :
    ConfInRange exampleStore ∧
    ConfInRange (MemoryStore.penalizeMemory exampleStore "vendor_1" 3) ∧
    ConfInRange (MemoryStore.applyDecayToAll exampleStore 20) :=
  ⟨by decide,
   (c4_mutations_preserve_confidence_clamp exampleStore (by decide)).2.2.2.2.2.1
     "vendor_1" 3,
   (c4_mutations_preserve_confidence_clamp exampleStore (by decide)).2.2.2.2.2.2
     20⟩

/-! ## C10: deactivation is permanent -/

/-- Positional persistence of the inactive flag: the collection does not
shrink, and a record that was inactive at a position is still inactive at
that position. -/
def keepsInactiveL {α : Type _} (act : α → Bool) (l l' : List α) : Prop :=
  l.length ≤ l'.length ∧
    ∀ i, (hi : i < l.length) → (hi' : i < l'.length) →
      act (l.get ⟨i, hi⟩) = false → act (l'.get ⟨i, hi'⟩) = false

lemma keepsInactiveL_refl {α} (act : α → Bool) (l : List α) :
    keepsInactiveL act l l :=
  ⟨le_refl _, fun _ _ _ h => h⟩

lemma keepsInactiveL_trans {α} {act : α → Bool} {l1 l2 l3 : List α}
    (h1 : keepsInactiveL act l1 l2) (h2 : keepsInactiveL act l2 l3) :
    keepsInactiveL act l1 l3 := by
  refine ⟨le_trans h1.1 h2.1, fun i hi hi' hf => ?_⟩
  exact h2.2 i (lt_of_lt_of_le hi h1.1) hi' (h1.2 i hi (lt_of_lt_of_le hi h1.1) hf)

lemma length_updateFirst {α} (p : α → Bool) (f : α → α) :
    ∀ l : List α, (updateFirst p f l).length = l.length := by
  intro l
  induction l with
  | nil => rfl
  | cons a t ih =>
      simp only [updateFirst]
      split <;> simp [ih]

/-- Through `updateFirst`, every position holds either the old element or
the image of the first element satisfying the predicate. -/
lemma keepsInactiveL_updateFirst {α} (act : α → Bool) (p : α → Bool) (f : α → α)
    (l : List α) (hf : ∀ x, l.find? p = some x → act x = false → act (f x) = false) :
    keepsInactiveL act l (updateFirst p f l) := by
  induction l with
  | nil => exact keepsInactiveL_refl act []
  | cons a t ih =>
      by_cases hp : p a = true
      · have heq : updateFirst p f (a :: t) = f a :: t := by
          simp [updateFirst, hp]
        rw [heq]
        refine ⟨by simp, fun i hi hi' hfl => ?_⟩
        cases i with
        | zero =>
            simp only [List.get] at hfl ⊢
            exact hf a (List.find?_cons_of_pos _ hp) hfl
        | succ n =>
            simp only [List.get] at hfl ⊢
            exact hfl
      · have heq : updateFirst p f (a :: t) = a :: updateFirst p f t := by
          simp [updateFirst, hp]
        rw [heq]
        have hstep := ih (fun x hx =>
          hf x (by rw [List.find?_cons_of_neg _ hp]; exact hx))
        refine ⟨?_, fun i hi hi' hfl => ?_⟩
        · simp [length_updateFirst]
        · cases i with
          | zero =>
              simp only [List.get] at hfl ⊢
              exact hfl
          | succ n =>
              simp only [List.get] at hfl ⊢
              have hn : n < t.length := by simpa using hi
              have hn' : n < (updateFirst p f t).length := by
                rw [length_updateFirst]; exact hn
              exact hstep.2 n hn hn' hfl

lemma keepsInactiveL_append {α} (act : α → Bool) (l m : List α) :
    keepsInactiveL act l (l ++ m) := by
  refine ⟨by simp, fun i hi hi' h => ?_⟩
  have : (l ++ m).get ⟨i, hi'⟩ = l.get ⟨i, hi⟩ := by
    simp only [List.get_eq_getElem]
    exact List.getElem_append_left hi
  rwa [this]

lemma keepsInactiveL_map {α} (act : α → Bool) (g : α → α)
    (hg : ∀ x, act x = false → act (g x) = false) (l : List α) :
    keepsInactiveL act l (l.map g) := by
  refine ⟨by simp, fun i hi hi' h => ?_⟩
  have : (l.map g).get ⟨i, hi'⟩ = g (l.get ⟨i, hi⟩) := by
    simp [List.get_eq_getElem]
  rw [this]
  exact hg _ h

/-- Per-collection inactive persistence for the whole store. -/
def PreservesInactive (s s' : Store) : Prop :=
  keepsInactiveL (fun kv => kv.2.base.isActive) s.vendorMemories s'.vendorMemories ∧
  keepsInactiveL (fun c => c.base.isActive) s.correctionMemories s'.correctionMemories ∧
  keepsInactiveL (fun r => r.base.isActive) s.resolutionMemories s'.resolutionMemories ∧
  keepsInactiveL (fun d => d.base.isActive) s.duplicates s'.duplicates

lemma preservesInactive_refl (s : Store) : PreservesInactive s s :=
  ⟨keepsInactiveL_refl _ _, keepsInactiveL_refl _ _, keepsInactiveL_refl _ _,
   keepsInactiveL_refl _ _⟩

lemma preservesInactive_trans {s1 s2 s3 : Store} (h1 : PreservesInactive s1 s2)
    (h2 : PreservesInactive s2 s3) : PreservesInactive s1 s3 :=
  ⟨keepsInactiveL_trans h1.1 h2.1, keepsInactiveL_trans h1.2.1 h2.2.1,
   keepsInactiveL_trans h1.2.2.1 h2.2.2.1, keepsInactiveL_trans h1.2.2.2 h2.2.2.2⟩

lemma reinforceBase_isActive (b : MemBase) (now : ℤ) :
    (MemoryStore.reinforceBase b now).isActive = b.isActive := rfl

lemma penalizeBase_inactive (b : MemBase) (now : ℤ) (h : b.isActive = false) :
    (MemoryStore.penalizeBase b now).isActive = false := by
  simp only [MemoryStore.penalizeBase]
  split <;> simp [h]

lemma decayBase_inactive (b : MemBase) (now : ℤ) (h : b.isActive = false) :
    (MemoryStore.decayBase b now).isActive = false := by
  simp [MemoryStore.decayBase, h]

/-- C10 helper: `reinforceMemory` never reactivates a record. -/
lemma preservesInactive_reinforceMemory (s : Store) (mid : String) (now : ℤ) :
    PreservesInactive s (MemoryStore.reinforceMemory s mid now) := by
  unfold MemoryStore.reinforceMemory
  split
  · exact ⟨keepsInactiveL_updateFirst _ _ _ _ (fun x _ hx => hx),
      keepsInactiveL_refl _ _, keepsInactiveL_refl _ _, keepsInactiveL_refl _ _⟩
  · split
    · exact ⟨keepsInactiveL_refl _ _,
        keepsInactiveL_updateFirst _ _ _ _ (fun x _ hx => hx),
        keepsInactiveL_refl _ _, keepsInactiveL_refl _ _⟩
    · split
      · exact ⟨keepsInactiveL_refl _ _, keepsInactiveL_refl _ _,
          keepsInactiveL_updateFirst _ _ _ _ (fun x _ hx => hx),
          keepsInactiveL_refl _ _⟩
      · split
        · exact ⟨keepsInactiveL_refl _ _, keepsInactiveL_refl _ _,
            keepsInactiveL_refl _ _,
            keepsInactiveL_updateFirst _ _ _ _ (fun x _ hx => hx)⟩
        · exact preservesInactive_refl s

/-- C10 helper: `penalizeMemory` never reactivates a record. -/
lemma preservesInactive_penalizeMemory (s : Store) (mid : String) (now : ℤ) :
    PreservesInactive s (MemoryStore.penalizeMemory s mid now) := by
  unfold MemoryStore.penalizeMemory
  split
  · exact ⟨keepsInactiveL_updateFirst _ _ _ _
      (fun x _ hx => penalizeBase_inactive _ now hx),
      keepsInactiveL_refl _ _, keepsInactiveL_refl _ _, keepsInactiveL_refl _ _⟩
  · split
    · exact ⟨keepsInactiveL_refl _ _,
        keepsInactiveL_updateFirst _ _ _ _
          (fun x _ hx => penalizeBase_inactive _ now hx),
        keepsInactiveL_refl _ _, keepsInactiveL_refl _ _⟩
    · split
      · exact ⟨keepsInactiveL_refl _ _, keepsInactiveL_refl _ _,
          keepsInactiveL_updateFirst _ _ _ _
            (fun x _ hx => penalizeBase_inactive _ now hx),
          keepsInactiveL_refl _ _⟩
      · split
        · exact ⟨keepsInactiveL_refl _ _, keepsInactiveL_refl _ _,
            keepsInactiveL_refl _ _,
            keepsInactiveL_updateFirst _ _ _ _
              (fun x _ hx => penalizeBase_inactive _ now hx)⟩
        · exact preservesInactive_refl s

/-- The existing-vendor mutation keeps the active flag. -/
lemma applyVendorUpdates_isActive (e : VendorMemory) (u : MemoryStore.VendorUpdates)
    (now : ℤ) :
    (MemoryStore.applyVendorUpdates e u now).base.isActive = e.base.isActive := by
  rw [applyVendorUpdates_base]
  rfl

/-- C10 helper: `updateVendorMemory` never reactivates a record. -/
lemma preservesInactive_updateVendorMemory (s : Store) (vid : String)
    (u : MemoryStore.VendorUpdates) (nid : String) (now : ℤ) :
    PreservesInactive s (MemoryStore.updateVendorMemory s vid u nid now).2 := by
  unfold MemoryStore.updateVendorMemory
  cases hfind : MemoryStore.getVendorMemory s vid with
  | some existing =>
      refine ⟨?_, keepsInactiveL_refl _ _, keepsInactiveL_refl _ _,
        keepsInactiveL_refl _ _⟩
      refine keepsInactiveL_updateFirst _ _ _ _ (fun x hx hxa => ?_)
      have hx2 : x.2 = existing := by
        unfold MemoryStore.getVendorMemory at hfind
        rcases Option.map_eq_some'.mp hfind with ⟨kv, hkv, hkv2⟩
        rw [hx] at hkv
        injection hkv with h
        rw [h, hkv2]
      simp only [applyVendorUpdates_isActive, ← hx2]
      exact hxa
  | none =>
      exact ⟨keepsInactiveL_append _ _ _, keepsInactiveL_refl _ _,
        keepsInactiveL_refl _ _, keepsInactiveL_refl _ _⟩

/-- C10 helper: `addVendorFieldMapping` never reactivates a record. -/
lemma preservesInactive_addVendorFieldMapping (s : Store) (vid : String)
    (fm : FieldMapping) (now : ℤ) :
    PreservesInactive s (MemoryStore.addVendorFieldMapping s vid fm now) := by
  unfold MemoryStore.addVendorFieldMapping
  split
  · exact ⟨keepsInactiveL_updateFirst _ _ _ _ (fun x _ hx => hx),
      keepsInactiveL_refl _ _, keepsInactiveL_refl _ _, keepsInactiveL_refl _ _⟩
  · exact preservesInactive_refl s

/-- C10 helper: `recordCorrection` never reactivates a record. -/
lemma preservesInactive_recordCorrection (s : Store)
    (prm : MemoryStore.CorrectionParams) (nid : String) (now : ℤ) :
    PreservesInactive s (MemoryStore.recordCorrection s prm nid now).2 := by
  unfold MemoryStore.recordCorrection
  cases MemoryStore.findSimilarCorrection s.correctionMemories prm.pattern with
  | some existing =>
      exact ⟨keepsInactiveL_refl _ _,
        keepsInactiveL_updateFirst _ _ _ _ (fun x _ hx => hx),
        keepsInactiveL_refl _ _, keepsInactiveL_refl _ _⟩
  | none =>
      exact ⟨keepsInactiveL_refl _ _, keepsInactiveL_append _ _ _,
        keepsInactiveL_refl _ _, keepsInactiveL_refl _ _⟩

/-- C10 helper: `recordResolution` never reactivates a record. -/
lemma preservesInactive_recordResolution (s : Store)
    (prm : MemoryStore.ResolutionParams) (nid : String) (now : ℤ) :
    PreservesInactive s (MemoryStore.recordResolution s prm nid now).2 := by
  simp only [MemoryStore.recordResolution]
  split
  · exact ⟨keepsInactiveL_refl _ _, keepsInactiveL_refl _ _,
      keepsInactiveL_updateFirst _ _ _ _ (fun x _ hx => hx),
      keepsInactiveL_refl _ _⟩
  · have happ : PreservesInactive s { s with resolutionMemories :=
        s.resolutionMemories ++
        [{ base := ⟨nid, now, now, 0.6, 1, 0, true⟩,
           decisions := [prm.decision],
           relatedMemoryId := prm.relatedMemoryId,
           contextHash := prm.contextHash.getD (generateHash
             [("type", prm.decision.decisionType),
              ("action", prm.decision.action)]) }] } :=
      ⟨keepsInactiveL_refl _ _, keepsInactiveL_refl _ _,
       keepsInactiveL_append _ _ _, keepsInactiveL_refl _ _⟩
    cases hrel : prm.relatedMemoryId with
    | some rid =>
        rw [hrel] at happ
        dsimp only
        split
        · exact preservesInactive_trans happ
            (preservesInactive_penalizeMemory _ rid now)
        · exact happ
    | none =>
        rw [hrel] at happ
        exact happ

/-- C10 helper: `recordDuplicate` never reactivates a record. -/
lemma preservesInactive_recordDuplicate (s : Store)
    (prm : MemoryStore.DuplicateParams) (nid : String) (now : ℤ) :
    PreservesInactive s (MemoryStore.recordDuplicate s prm nid now).2 := by
  simp only [MemoryStore.recordDuplicate]
  split
  · exact ⟨keepsInactiveL_refl _ _, keepsInactiveL_refl _ _,
      keepsInactiveL_refl _ _,
      keepsInactiveL_updateFirst _ _ _ _ (fun x _ hx => hx)⟩
  · exact ⟨keepsInactiveL_refl _ _, keepsInactiveL_refl _ _,
      keepsInactiveL_refl _ _, keepsInactiveL_append _ _ _⟩

/-- C10 helper: `applyDecayToAll` never reactivates a record. -/
lemma preservesInactive_applyDecayToAll (s : Store) (now : ℤ) :
    PreservesInactive s (MemoryStore.applyDecayToAll s now) := by
  unfold MemoryStore.applyDecayToAll
  refine ⟨keepsInactiveL_map _ _ (fun x hx => ?_) _,
    keepsInactiveL_map _ _ (fun x hx => ?_) _,
    keepsInactiveL_map _ _ (fun x hx => ?_) _,
    keepsInactiveL_map _ _ (fun x hx => ?_) _⟩ <;>
    exact decayBase_inactive _ now hx

/-- C10: deactivation is permanent — for every memory-store operation and
every memory record, a record inactive (at its position) before the
operation is still inactive after it; no operation ever sets `isActive`
back to `true` on an existing record (collections only grow, by records that
are new). -/
theorem c10_deactivation_is_permanent (s : Store) :
    (∀ vid u nid now,
      PreservesInactive s (MemoryStore.updateVendorMemory s vid u nid now).2) ∧
    (∀ vid fm now,
      PreservesInactive s (MemoryStore.addVendorFieldMapping s vid fm now)) ∧
    (∀ prm nid now,
      PreservesInactive s (MemoryStore.recordCorrection s prm nid now).2) ∧
    (∀ prm nid now,
      PreservesInactive s (MemoryStore.recordResolution s prm nid now).2) ∧
    (∀ prm nid now,
      PreservesInactive s (MemoryStore.recordDuplicate s prm nid now).2) ∧
    (∀ mid now, PreservesInactive s (MemoryStore.reinforceMemory s mid now)) ∧
    (∀ mid now, PreservesInactive s (MemoryStore.penalizeMemory s mid now)) ∧
    (∀ now, PreservesInactive s (MemoryStore.applyDecayToAll s now)) :=
  ⟨fun vid u nid now => preservesInactive_updateVendorMemory s vid u nid now,
   fun vid fm now => preservesInactive_addVendorFieldMapping s vid fm now,
   fun prm nid now => preservesInactive_recordCorrection s prm nid now,
   fun prm nid now => preservesInactive_recordResolution s prm nid now,
   fun prm nid now => preservesInactive_recordDuplicate s prm nid now,
   fun mid now => preservesInactive_reinforceMemory s mid now,
   fun mid now => preservesInactive_penalizeMemory s mid now,
   fun now => preservesInactive_applyDecayToAll s now⟩

/-- C10 witness: inactive persistence at a concrete store and operation. -/
theorem c10_witness :
    PreservesInactive exampleStore
      (MemoryStore.reinforceMemory exampleStore "vendor_1" 4) :=
  (c10_deactivation_is_permanent exampleStore).2.2.2.2.2.1 "vendor_1" 4

/-! ## C5: duplicate lineages per fingerprint -/

/-- `updateFirst` is invisible under a projection its update preserves. -/
lemma map_updateFirst {α β} (g : α → β) (p : α → Bool) (f : α → α)
    (hgf : ∀ x, g (f x) = g x) :
    ∀ l : List α, (updateFirst p f l).map g = l.map g := by
  intro l
  induction l with
  | nil => rfl
  | cons a t ih =>
      simp only [updateFirst]
      split <;> simp [hgf, ih]

/-- Nodup of a preserved projection survives `updateFirst`. -/
lemma nodup_map_updateFirst {α β} (g : α → β) (p : α → Bool) (f : α → α)
    (l : List α) (hgf : ∀ x, g (f x) = g x)
    (h : (l.map g).Nodup) : ((updateFirst p f l).map g).Nodup := by
  rw [map_updateFirst g p f hgf l]
  exact h

/-- First call of the C5 counterexample: vendor "v", invoice number "42",
January 2024, amount 100. -/
def c5paramsA : MemoryStore.DuplicateParams :=
  { vendorId := "v", invoiceNumber := "42", invoiceDate := "2024-01-05",
    amount := 100, invoiceId := "a" }

/-- Second call: same vendor, number and month, but amount 200 — the same
fingerprint with fuzzy similarity 0.5. -/
def c5paramsB : MemoryStore.DuplicateParams :=
  { vendorId := "v", invoiceNumber := "42", invoiceDate := "2024-01-20",
    amount := 200, invoiceId := "b" }

/-- The store after the two `recordDuplicate` calls. -/
def c5store : Store :=
  (MemoryStore.recordDuplicate
    (MemoryStore.recordDuplicate createEmptyStore c5paramsA "dup0" 0).2
    c5paramsB "dup1" 1).2

/-- C5 counterexample: the second call's hash matches the existing record
but its similarity (0.5, amounts 100 vs 200) is below the 0.8 threshold, so
`recordDuplicate` pushes a second record with the same `duplicateHash` —
two records share one fingerprint. -/
theorem c5_counterexample :
    c5store.duplicates.length = 2 ∧
    ((MemoryStore.recordDuplicate createEmptyStore c5paramsA "dup0" 0).2.duplicates.map
      fun d => MemoryStore.calculateDuplicateSimilarity d c5paramsB) = [0.5] ∧
    ¬ (c5store.duplicates.map fun d => d.duplicateHash).Nodup := by
  refine ⟨by decide, by decide, by decide⟩

/-- C5 (amended): `recordDuplicate` appends the invoice id (creating no new
record) only when the matched record's fuzzy similarity exceeds 0.8; a hash
hit at or below that threshold creates a second record with the same hash.
Hash-uniqueness is therefore preserved by a call exactly when any record
matching the call's hash has similarity above 0.8 (vacuously so on a
miss). -/
theorem c5_hash_unique_above_threshold (s : Store)
    (prm : MemoryStore.DuplicateParams) (nid : String) (now : ℤ)
    (hND : (s.duplicates.map fun d => d.duplicateHash).Nodup)
    (hsim : ∀ r, MemoryStore.findDuplicate s (MemoryStore.dupStoreHash prm) = some r →
      MemoryStore.calculateDuplicateSimilarity r prm > 0.8) :
    ((MemoryStore.recordDuplicate s prm nid now).2.duplicates.map
      fun d => d.duplicateHash).Nodup := by
  simp only [MemoryStore.recordDuplicate]
  split
  · dsimp only
    exact nodup_map_updateFirst _ _ _ _ (fun x => rfl) hND
  · rename_i hmiss
    have hfind : s.duplicates.find?
        (fun d => d.duplicateHash == MemoryStore.dupStoreHash prm) = none := by
      cases hf : s.duplicates.find?
          (fun d => d.duplicateHash == MemoryStore.dupStoreHash prm) with
      | some r =>
          exfalso
          apply hmiss
          have := hsim r hf
          simp only [hf, decide_eq_true_eq]
          exact this
      | none => rfl
    have hnotin : MemoryStore.dupStoreHash prm ∉
        s.duplicates.map fun d => d.duplicateHash := by
      intro hmem
      rcases List.mem_map.mp hmem with ⟨d, hd, hdh⟩
      have := List.find?_eq_none.mp hfind d hd
      simp [hdh] at this
    simp only [List.map_append, List.map_cons, List.map_nil]
    rw [List.nodup_append]
    refine ⟨hND, List.nodup_singleton _, ?_⟩
    intro x hx hy
    simp only [List.mem_singleton] at hy
    subst hy
    exact hnotin hx

/-- C5 witness: uniqueness preserved by the first call on the empty store. -/
theorem c5_witness :
    ((MemoryStore.recordDuplicate createEmptyStore c5paramsA "dup0" 0).2.duplicates.map
      fun d => d.duplicateHash).Nodup :=
  c5_hash_unique_above_threshold createEmptyStore c5paramsA "dup0" 0 (by decide)
    (by intro r h; simp [MemoryStore.findDuplicate, createEmptyStore] at h)

/-! ## C8: three penalizations deactivate and exclude a fresh correction -/

/-- `updateFirst` passes over a prefix with no match. -/
lemma updateFirst_append_of_none {α} (p : α → Bool) (f : α → α)
    (l l' : List α) (h : ∀ x ∈ l, ¬ p x = true) :
    updateFirst p f (l ++ l') = l ++ updateFirst p f l' := by
  induction l with
  | nil => rfl
  | cons a t ih =>
      simp only [List.cons_append, updateFirst]
      rw [if_neg (h a (by simp))]
      exact congrArg _ (ih (fun x hx => h x (List.mem_cons_of_mem _ hx)))

/-- `penalizeMemory` on a store whose only record with the id is a freshly
appended correction penalizes exactly that record. -/
lemma penalizeMemory_fresh_correction (s : Store) (r : CorrectionMemory)
    (nid : String) (now : ℤ)
    (hV : ∀ kv ∈ s.vendorMemories, kv.2.base.id ≠ nid)
    (hC : ∀ c ∈ s.correctionMemories, c.base.id ≠ nid)
    (hr : r.base.id = nid) :
    MemoryStore.penalizeMemory
        { s with correctionMemories := s.correctionMemories ++ [r] } nid now =
      { s with correctionMemories := s.correctionMemories ++
          [{ r with base := MemoryStore.penalizeBase r.base now }] } := by
  have hvAny : (s.vendorMemories.any fun kv => kv.2.base.id == nid) = false := by
    rw [List.any_eq_false]
    intro kv hkv
    simpa using hV kv hkv
  have hcAny : ((s.correctionMemories ++ [r]).any fun c => c.base.id == nid) = true :=
    List.any_eq_true.mpr ⟨r, by simp, by simp [hr]⟩
  unfold MemoryStore.penalizeMemory
  dsimp only
  rw [hvAny, hcAny]
  simp only [Bool.false_eq_true, if_false, if_true]
  rw [updateFirst_append_of_none _ _ _ _ (fun x hx => by simp [hC x hx])]
  have : updateFirst (fun c => c.base.id == nid)
      (fun c => { c with base := MemoryStore.penalizeBase c.base now }) [r] =
      [{ r with base := MemoryStore.penalizeBase r.base now }] := by
    simp [updateFirst, hr]
  rw [this]

/-- C8: a correction memory created with initial confidence 0.3 (not
human-approved) that is then penalized three consecutive times ends
deactivated — its confidence has crossed below the 0.1 threshold — and is
from then on excluded from `findCorrections` and `findSimilarCorrection`.
The freshness hypotheses say the generated id collides with no existing
vendor or correction record, as ids do not repeat. -/
theorem c8_penalized_thrice_deactivated_and_excluded (s : Store)
    (prm : MemoryStore.CorrectionParams) (nid : String) (n1 n2 n3 n4 : ℤ)
    (hfind : MemoryStore.findSimilarCorrection s.correctionMemories prm.pattern = none)
    (hap : prm.humanApproved = false)
    (hV : ∀ kv ∈ s.vendorMemories, kv.2.base.id ≠ nid)
    (hC : ∀ c ∈ s.correctionMemories, c.base.id ≠ nid) :
    let s4 := MemoryStore.penalizeMemory (MemoryStore.penalizeMemory
      (MemoryStore.penalizeMemory (MemoryStore.recordCorrection s prm nid n1).2
        nid n2) nid n3) nid n4
    (∃ c ∈ s4.correctionMemories, c.base.id = nid ∧ c.base.isActive = false) ∧
    (∀ c ∈ s4.correctionMemories, c.base.id = nid → c.base.isActive = false) ∧
    (∀ pt vid c, c ∈ MemoryStore.findCorrections s4 pt vid → c.base.id ≠ nid) ∧
    (∀ pat c, MemoryStore.findSimilarCorrection s4.correctionMemories pat = some c →
      c.base.id ≠ nid) := by
  intro s4
  -- the freshly created record
  set r0 : CorrectionMemory :=
    { base := ⟨nid, n1, n1, initialConfidence, 1, 0, true⟩
      pattern := prm.pattern
      suggestedAction := prm.suggestedAction
      vendorId := prm.vendorId
      humanApproved := prm.humanApproved } with hr0
  have h1 : (MemoryStore.recordCorrection s prm nid n1).2 =
      { s with correctionMemories := s.correctionMemories ++ [r0] } := by
    simp only [MemoryStore.recordCorrection, hfind, hap]
    simp [hr0, hap]
  set r1 : CorrectionMemory :=
    { r0 with base := MemoryStore.penalizeBase r0.base n2 } with hr1
  set r2 : CorrectionMemory :=
    { r1 with base := MemoryStore.penalizeBase r1.base n3 } with hr2
  set r3 : CorrectionMemory :=
    { r2 with base := MemoryStore.penalizeBase r2.base n4 } with hr3
  have h2 : MemoryStore.penalizeMemory (MemoryStore.recordCorrection s prm nid n1).2
      nid n2 = { s with correctionMemories := s.correctionMemories ++ [r1] } := by
    rw [h1]
    exact penalizeMemory_fresh_correction s r0 nid n2 hV hC rfl
  have hid1 : r1.base.id = nid := rfl
  have hid2 : r2.base.id = nid := rfl
  have hid3 : r3.base.id = nid := rfl
  have h3 : MemoryStore.penalizeMemory (MemoryStore.penalizeMemory
      (MemoryStore.recordCorrection s prm nid n1).2 nid n2) nid n3 =
      { s with correctionMemories := s.correctionMemories ++ [r2] } := by
    rw [h2]
    exact penalizeMemory_fresh_correction s r1 nid n3 hV hC hid1
  have h4 : s4 = { s with correctionMemories := s.correctionMemories ++ [r3] } := by
    show MemoryStore.penalizeMemory _ nid n4 = _
    rw [h3]
    exact penalizeMemory_fresh_correction s r2 nid n4 hV hC hid2
  -- the confidence trajectory 0.3 → 0.1 → 0 → 0 deactivates at the second step
  have hact3 : r3.base.isActive = false := by
    have e1 : penalize initialConfidence = 0.1 := by decide
    have e2 : shouldDeactivate (0.1 : ℚ) = false := by decide
    have e3 : penalize (0.1 : ℚ) = 0 := by decide
    have e4 : shouldDeactivate (0 : ℚ) = true := by decide
    simp only [hr3, hr2, hr1, hr0, MemoryStore.penalizeBase]
    simp [e1, e2, e3, e4]
  have hmem : ∀ c ∈ s.correctionMemories ++ [r3],
      c.base.id = nid → c.base.isActive = false := by
    intro c hc hcid
    rcases List.mem_append.mp hc with h | h
    · exact absurd hcid (hC c h)
    · simp only [List.mem_singleton] at h
      subst h
      exact hact3
  refine ⟨?_, ?_, ?_, ?_⟩
  · exact ⟨r3, by rw [h4]; simp, hid3, hact3⟩
  · intro c hc
    rw [h4] at hc
    exact hmem c hc
  · intro pt vid c hcmem hcid
    unfold MemoryStore.findCorrections at hcmem
    rw [h4] at hcmem
    obtain ⟨hcm, hpred⟩ := List.mem_filter.mp hcmem
    have hactive : c.base.isActive = true := by
      simp only [Bool.and_eq_true] at hpred
      exact hpred.1.1
    have := hmem c hcm hcid
    rw [this] at hactive
    exact Bool.false_ne_true hactive
  · intro pat c hfc hcid
    unfold MemoryStore.findSimilarCorrection at hfc
    rw [h4] at hfc
    have hcm := List.mem_of_find?_eq_some hfc
    have hpred := List.find?_some hfc
    have hactive : c.base.isActive = true := by
      simp only [Bool.and_eq_true] at hpred
      exact hpred.1.1
    have := hmem c hcm hcid
    rw [this] at hactive
    exact Bool.false_ne_true hactive

/-- The correction parameters used by the C8 witness. -/
def c8params : MemoryStore.CorrectionParams :=
  { pattern := { type := PatternType.fieldCorrection
                 signature := "field_corr:acme"
                 condition := "" }
    suggestedAction := "normalize field"
    vendorId := some "acme"
    humanApproved := false }

/-- C8 witness: the scenario run concretely from the empty store. -/
theorem c8_witness :
    let s4 := MemoryStore.penalizeMemory (MemoryStore.penalizeMemory
      (MemoryStore.penalizeMemory
        (MemoryStore.recordCorrection createEmptyStore c8params "corr_1" 0).2
        "corr_1" 1) "corr_1" 2) "corr_1" 3
    (∃ c ∈ s4.correctionMemories, c.base.id = "corr_1" ∧ c.base.isActive = false) ∧
    (∀ c ∈ s4.correctionMemories, c.base.id = "corr_1" → c.base.isActive = false) ∧
    (∀ pt vid c, c ∈ MemoryStore.findCorrections s4 pt vid → c.base.id ≠ "corr_1") ∧
    (∀ pat c, MemoryStore.findSimilarCorrection s4.correctionMemories pat = some c →
      c.base.id ≠ "corr_1") :=
  c8_penalized_thrice_deactivated_and_excluded createEmptyStore c8params "corr_1"
    0 1 2 3 (by decide) (by decide) (by decide) (by decide)

/-! ## C6: the apply-phase aggregate confidence -/

/-- A plain invoice from an unknown-type vendor: nothing for the heuristics
to correct. -/
def c6invoice : InvoiceInput :=
  { invoiceId := "c6"
    vendor := { name := "acme", id := none, taxId := none, address := none }
    invoiceDate := "2024-01-05", dueDate := none, invoiceNumber := "42"
    totalAmount := 100, currency := "EUR", lineItems := [], poNumber := none
    metadata := [], rawText := none, serviceDate := none, paymentTerms := none
    extractionConfidence := none }

/-- A vendor memory for it with confidence 0.9. -/
def c6vendorMemory : VendorMemory :=
  { base := ⟨"vm1", 0, 0, 0.9, 3, 0, true⟩
    canonicalName := "acme", canonicalId := "acme", nameVariations := []
    fieldMappings := [], behaviors := VendorBehavior.empty, taxId := none }

/-- The recall result the apply phase receives: a vendor memory and an empty
correction-memory set. -/
def c6recall : Pipeline.RecallResult :=
  { vendorMemory := some c6vendorMemory, correctionMemories := [],
    duplicateRecord := none, duplicateHash := "" }

/-- C6 counterexample: with no applicable correction memories (and no
heuristic corrections), the correction-rules average defaults to 0.5, not to
the vendor confidence: the aggregate is `0.9·0.6 + 0.5·0.4 = 0.74 ≠ 0.9`,
refuting "the aggregate equals vendorConfidence whenever no correction
memories produced output". -/
theorem c6_counterexample :
    (CorrectionRules.applyCorrectionMemories c6invoice []
      Pipeline.DEFAULT_OPTIONS.autoApplyThreshold).corrections = [] ∧
    (VendorRules.applyVendorMemories c6invoice (some c6vendorMemory)
      Pipeline.DEFAULT_OPTIONS.autoApplyThreshold "gen0" 0).vendorConfidence = 0.9 ∧
    (Pipeline.applyMemories c6invoice Pipeline.DEFAULT_OPTIONS c6recall
      "gen0" 0).1.overallConfidence = 0.74 ∧
    ¬ ((0.74 : ℚ) = 0.9) := by
  refine ⟨by decide, by decide, by decide, by decide⟩

/-- C6 (amended): the apply-phase aggregate is
`vendorConfidence * 0.6 + averageConfidence * 0.4`, where
`averageConfidence` is what the correction rules computed (the average of
applicable correction-memory confidences; with none applicable, the average
heuristic-correction confidence, 0.5 by default); the aggregate collapses to
`vendorConfidence` exactly when that average is 0 (the JS `||` fallback),
not whenever no correction memories produced output. -/
theorem c6_aggregate_formula (invoice : InvoiceInput)
    (opts : Pipeline.PipelineOptions) (rr : Pipeline.RecallResult)
    (nid : String) (now : ℤ) :
    (Pipeline.applyMemories invoice opts rr nid now).1.overallConfidence =
      (if (CorrectionRules.applyCorrectionMemories invoice
            rr.correctionMemories opts.autoApplyThreshold).averageConfidence = 0
       then (VendorRules.applyVendorMemories invoice rr.vendorMemory
          opts.autoApplyThreshold nid now).vendorConfidence
       else (VendorRules.applyVendorMemories invoice rr.vendorMemory
            opts.autoApplyThreshold nid now).vendorConfidence * 0.6 +
          (CorrectionRules.applyCorrectionMemories invoice
            rr.correctionMemories opts.autoApplyThreshold).averageConfidence
            * 0.4) := by
  by_cases h : (CorrectionRules.applyCorrectionMemories invoice
      rr.correctionMemories opts.autoApplyThreshold).averageConfidence = 0
  · simp only [Pipeline.applyMemories, Pipeline.orJS, h, if_pos]
    ring
  · simp only [Pipeline.applyMemories, Pipeline.orJS, h, if_neg, if_false]

/-! ## C7: the missing-vendor guard -/

/-- C7: an invoice without a vendor name (the absent vendor object collapses
to the empty name in this typed model) short-circuits before Recall: zero
confidence, forced review, empty audit trail, corrections and memory
updates, and an untouched memory store. -/
theorem c7_missing_vendor_short_circuit (invoice : InvoiceInput) (s : Store)
    (opts : Pipeline.PipelineOptions) (now : ℤ) (mkId : ℕ → String)
    (h : invoice.vendor.name = "") :
    (Pipeline.processInvoice invoice s opts now mkId).1.confidenceScore = 0 ∧
    (Pipeline.processInvoice invoice s opts now mkId).1.requiresHumanReview = true ∧
    (Pipeline.processInvoice invoice s opts now mkId).1.auditTrail = [] ∧
    (Pipeline.processInvoice invoice s opts now mkId).1.proposedCorrections = [] ∧
    (Pipeline.processInvoice invoice s opts now mkId).1.memoryUpdates = [] ∧
    (Pipeline.processInvoice invoice s opts now mkId).2 = s := by
  have hguard : (invoice.vendor.name == "") = true := by simp [h]
  simp only [Pipeline.processInvoice, hguard, if_true]
  norm_num [Pipeline.missingVendorOutput]

/-- An invoice whose vendor name is empty. -/
def c7invoice : InvoiceInput :=
  { invoiceId := "c7"
    vendor := { name := "", id := none, taxId := none, address := none }
    invoiceDate := "2024-01-05", dueDate := none, invoiceNumber := "42"
    totalAmount := 100, currency := "EUR", lineItems := [], poNumber := none
    metadata := [], rawText := none, serviceDate := none, paymentTerms := none
    extractionConfidence := none }

/-- C7 witness: the guard at a concrete nameless-vendor invoice. -/
theorem c7_witness :
    (Pipeline.processInvoice c7invoice createEmptyStore Pipeline.DEFAULT_OPTIONS
      0 (fun _ => "id")).1.confidenceScore = 0 ∧
    (Pipeline.processInvoice c7invoice createEmptyStore Pipeline.DEFAULT_OPTIONS
      0 (fun _ => "id")).1.requiresHumanReview = true ∧
    (Pipeline.processInvoice c7invoice createEmptyStore Pipeline.DEFAULT_OPTIONS
      0 (fun _ => "id")).1.auditTrail = [] ∧
    (Pipeline.processInvoice c7invoice createEmptyStore Pipeline.DEFAULT_OPTIONS
      0 (fun _ => "id")).1.proposedCorrections = [] ∧
    (Pipeline.processInvoice c7invoice createEmptyStore Pipeline.DEFAULT_OPTIONS
      0 (fun _ => "id")).1.memoryUpdates = [] ∧
    (Pipeline.processInvoice c7invoice createEmptyStore Pipeline.DEFAULT_OPTIONS
      0 (fun _ => "id")).2 = createEmptyStore :=
  c7_missing_vendor_short_circuit c7invoice createEmptyStore
    Pipeline.DEFAULT_OPTIONS 0 (fun _ => "id") rfl

/-! ## C1: the duplicate gate on a repeated invoice -/

/-- First invoice of the pair: vendor "acme", number "42", January 2024. -/
def c1invoiceA : InvoiceInput :=
  { invoiceId := "inv1"
    vendor := { name := "acme", id := none, taxId := none, address := none }
    invoiceDate := "2024-01-05", dueDate := none, invoiceNumber := "42"
    totalAmount := 100, currency := "EUR", lineItems := [], poNumber := none
    metadata := [], rawText := none, serviceDate := none, paymentTerms := none
    extractionConfidence := none }

/-- Second invoice: same vendor, invoice number and month. -/
def c1invoiceB : InvoiceInput :=
  { c1invoiceA with invoiceId := "inv2", invoiceDate := "2024-01-20" }

/-- The store after processing the first invoice. -/
def c1store1 : Store :=
  (Pipeline.processInvoice c1invoiceA createEmptyStore Pipeline.DEFAULT_OPTIONS
    0 (fun n => "a" ++ natDigits n)).2

/-- The full processing of the second invoice. -/
def c1run2 : InvoiceDecisionOutput × Store :=
  Pipeline.processInvoice c1invoiceB c1store1 Pipeline.DEFAULT_OPTIONS
    1 (fun n => "b" ++ natDigits n)

/-- C1, evaluated at the failing input: the two invoices share vendor,
invoice number and year-month, and the first run did store a duplicate
record (which the recall phase finds, first conjunct below being false would
contradict that), yet the duplicate gate `checkForDuplicate` misses —
`generateDuplicateHash` serializes under the JSON key `vendorKey` with
fully-normalized fields while the stored hash was serialized under
`vendorId` — so `isDuplicate` is `false`, learning is not skipped (one
memory update is emitted), and the final confidence is the decide-phase
score 0.35 (only the recall-side ×0.7 potential-duplicate penalty), not
that score times the configured duplicate penalty factor. -/
theorem c1_duplicate_gate_never_fires :
    (Pipeline.recallMemories c1invoiceB c1store1).duplicateRecord.isSome = true ∧
    (Duplicates.checkForDuplicate c1invoiceB c1store1).isDuplicate = false ∧
    c1run2.1.memoryUpdates.length = 1 ∧
    c1run2.1.confidenceScore = 0.35 ∧
    c1run2.1.requiresHumanReview = true := by
  refine ⟨by decide, by decide, by decide, by decide, by decide⟩

end InvoiceMemory
